import Mathlib

/-!
Verification of the PHP parser core (`src/src/parser/mod.rs`)

A shallow embedding of the parser's statement and expression recognizers,
its Pratt precedence engine and the heredoc/nowdoc dedent logic, together
with theorems settling the frozen claims about the specification.

Conventions of the embedding:
* PHP source bytes are `List Nat` (one `Nat` per byte).
* A `Span` is the token's `(line, column)` pair; the Rust code treats spans
  opaquely, defaulting to `(0, 0)`.
* Fallible parsing functions return `Except (ParseError × State) (α × State)`:
  Rust mutates `&mut State` in place, so the state reached at the moment an
  error is raised stays observable (the `Return` branch of `statement`
  resumes from it via `.ok()`).
* Recursion over the token stream is bounded by an explicit `fuel` argument;
  running out of fuel is the distinguished error `ParseError.outOfFuel`,
  which the Rust code (recursing on the call stack) never produces.
* Modules of the repository that are not under `src/` (the lexer's token
  type, `parser::state`, `parser::internal::*`, `parser::ast::*`) are
  modelled from the spec where needed; each such definition carries a
  doc comment starting with `Modelled from the spec:`.
-/

namespace Php

/-- PHP is byte oriented: identifier names, literals and string contents are
raw source bytes. -/
abbrev Bytes := List Nat

/-- Helper turning an ASCII string into source bytes. -/
def strBytes (s : String) : Bytes := s.data.map Char.toNat

/-- Modelled from the spec: a source position pair carried by every token
(`§3 Span`); the Rust code only stores and compares spans, defaulting to
`(0, 0)`. -/
abbrev Span := Nat × Nat

/-- Modelled from the spec: the heredoc/nowdoc discriminator
(`lexer::DocStringKind`). -/
inductive DocStringKind where
  | heredoc
  | nowdoc
deriving DecidableEq, Repr

/-- Modelled from the spec: the indentation character reported by an
`EndDocString` token is a space or a tab (`§4.5`). -/
inductive DocStringIndentationKind where
  | space
  | tab
deriving DecidableEq, Repr

/-- The `u8` the Rust code obtains via `indentation_type.into()`. -/
def DocStringIndentationKind.toByte : DocStringIndentationKind → Nat
  | .space => 32
  | .tab => 9

/-- Modelled from the spec: the lexer's token kinds (`§6`), restricted to the
kinds the parser core inspects.  Payload-carrying kinds keep their payloads;
`OpenTag`'s payload (always matched with a wildcard) is dropped.  Names that
collide with Lean keywords carry a suffix (`variable_`, `fromKw`, ...).
`ampersandEquals` is the `&=` token, called `AndEqual` in the older
trunk_lexer. -/
inductive TokenKind where
  | eof
  | openTag
  | closeTag
  | inlineHtml (s : Bytes)
  | identifier (n : Bytes)
  | qualifiedIdentifier (n : Bytes)
  | fullyQualifiedIdentifier (n : Bytes)
  | variable_ (n : Bytes)
  | literalInteger (i : Bytes)
  | literalFloat (f : Bytes)
  | literalString (s : Bytes)
  | stringPart (s : Bytes)
  | startDocString (label : Bytes) (kind : DocStringKind)
  | endDocString (label : Bytes) (indent : Option DocStringIndentationKind) (amount : Nat)
  | backtick
  | doubleQuote
  | dollarLeftBrace
  | dollar
  | singleLineComment (s : Bytes)
  | multiLineComment (s : Bytes)
  | hashMarkComment (s : Bytes)
  | documentComment (s : Bytes)
  | attribute
  | namespace_
  | use_
  | const_
  | haltCompiler
  | function
  | fn_
  | static_
  | abstract_
  | final_
  | readonly_
  | class_
  | interface
  | trait_
  | enum_
  | goto_
  | declare
  | global_
  | do_
  | while_
  | for_
  | foreach
  | switch
  | continue_
  | break_
  | if_
  | else_
  | elseIf
  | echo
  | returnKw
  | semiColon
  | try_
  | catch
  | finally
  | leftBrace
  | rightBrace
  | leftParen
  | rightParen
  | leftBracket
  | rightBracket
  | comma
  | colon
  | doubleColon
  | arrow
  | nullsafeArrow
  | doubleArrow
  | equals
  | plus
  | minus
  | asterisk
  | slash
  | percent
  | pow
  | dot
  | question
  | questionColon
  | coalesce
  | bang
  | ampersand
  | pipe
  | caret
  | leftShift
  | rightShift
  | lessThan
  | greaterThan
  | lessThanEquals
  | greaterThanEquals
  | doubleEquals
  | tripleEquals
  | bangEquals
  | bangDoubleEquals
  | angledLeftRight
  | spaceship
  | booleanAnd
  | booleanOr
  | logicalAnd
  | logicalOr
  | logicalXor
  | plusEquals
  | minusEquals
  | asteriskEqual
  | slashEquals
  | dotEquals
  | percentEquals
  | powEquals
  | ampersandEquals
  | pipeEquals
  | caretEquals
  | leftShiftEquals
  | rightShiftEquals
  | coalesceEqual
  | increment
  | decrement
  | print
  | new_
  | clone_
  | throw_
  | yield_
  | fromKw
  | match_
  | default_
  | array
  | list
  | ellipsis
  | as_
  | instanceof
  | self_
  | parent_
  | true_
  | false_
  | null
  | dirConstant
  | includeKw
  | includeOnce
  | requireKw
  | requireOnce
  | stringCast
  | binaryCast
  | objectCast
  | boolCast
  | booleanCast
  | intCast
  | integerCast
  | floatCast
  | doubleCast
  | realCast
  | unsetCast
  | arrayCast
  | at
  | private_
  | protected_
  | public_
  | bitwiseNot

/-- Constructor index of a token kind; the basis of the equality test
(`==` on `TokenKind` in the Rust code). -/
def TokenKind.tag : TokenKind → Nat
  | .eof => 0
  | .openTag => 1
  | .closeTag => 2
  | .inlineHtml _ => 3
  | .identifier _ => 4
  | .qualifiedIdentifier _ => 5
  | .fullyQualifiedIdentifier _ => 6
  | .variable_ _ => 7
  | .literalInteger _ => 8
  | .literalFloat _ => 9
  | .literalString _ => 10
  | .stringPart _ => 11
  | .startDocString _ _ => 12
  | .endDocString _ _ _ => 13
  | .backtick => 14
  | .doubleQuote => 15
  | .dollarLeftBrace => 16
  | .dollar => 17
  | .singleLineComment _ => 18
  | .multiLineComment _ => 19
  | .hashMarkComment _ => 20
  | .documentComment _ => 21
  | .attribute => 22
  | .namespace_ => 23
  | .use_ => 24
  | .const_ => 25
  | .haltCompiler => 26
  | .function => 27
  | .fn_ => 28
  | .static_ => 29
  | .abstract_ => 30
  | .final_ => 31
  | .readonly_ => 32
  | .class_ => 33
  | .interface => 34
  | .trait_ => 35
  | .enum_ => 36
  | .goto_ => 37
  | .declare => 38
  | .global_ => 39
  | .do_ => 40
  | .while_ => 41
  | .for_ => 42
  | .foreach => 43
  | .switch => 44
  | .continue_ => 45
  | .break_ => 46
  | .if_ => 47
  | .else_ => 48
  | .elseIf => 49
  | .echo => 50
  | .returnKw => 51
  | .semiColon => 52
  | .try_ => 53
  | .catch => 54
  | .finally => 55
  | .leftBrace => 56
  | .rightBrace => 57
  | .leftParen => 58
  | .rightParen => 59
  | .leftBracket => 60
  | .rightBracket => 61
  | .comma => 62
  | .colon => 63
  | .doubleColon => 64
  | .arrow => 65
  | .nullsafeArrow => 66
  | .doubleArrow => 67
  | .equals => 68
  | .plus => 69
  | .minus => 70
  | .asterisk => 71
  | .slash => 72
  | .percent => 73
  | .pow => 74
  | .dot => 75
  | .question => 76
  | .questionColon => 77
  | .coalesce => 78
  | .bang => 79
  | .ampersand => 80
  | .pipe => 81
  | .caret => 82
  | .leftShift => 83
  | .rightShift => 84
  | .lessThan => 85
  | .greaterThan => 86
  | .lessThanEquals => 87
  | .greaterThanEquals => 88
  | .doubleEquals => 89
  | .tripleEquals => 90
  | .bangEquals => 91
  | .bangDoubleEquals => 92
  | .angledLeftRight => 93
  | .spaceship => 94
  | .booleanAnd => 95
  | .booleanOr => 96
  | .logicalAnd => 97
  | .logicalOr => 98
  | .logicalXor => 99
  | .plusEquals => 100
  | .minusEquals => 101
  | .asteriskEqual => 102
  | .slashEquals => 103
  | .dotEquals => 104
  | .percentEquals => 105
  | .powEquals => 106
  | .ampersandEquals => 107
  | .pipeEquals => 108
  | .caretEquals => 109
  | .leftShiftEquals => 110
  | .rightShiftEquals => 111
  | .coalesceEqual => 112
  | .increment => 113
  | .decrement => 114
  | .print => 115
  | .new_ => 116
  | .clone_ => 117
  | .throw_ => 118
  | .yield_ => 119
  | .fromKw => 120
  | .match_ => 121
  | .default_ => 122
  | .array => 123
  | .list => 124
  | .ellipsis => 125
  | .as_ => 126
  | .instanceof => 127
  | .self_ => 128
  | .parent_ => 129
  | .true_ => 130
  | .false_ => 131
  | .null => 132
  | .dirConstant => 133
  | .includeKw => 134
  | .includeOnce => 135
  | .requireKw => 136
  | .requireOnce => 137
  | .stringCast => 138
  | .binaryCast => 139
  | .objectCast => 140
  | .boolCast => 141
  | .booleanCast => 142
  | .intCast => 143
  | .integerCast => 144
  | .floatCast => 145
  | .doubleCast => 146
  | .realCast => 147
  | .unsetCast => 148
  | .arrayCast => 149
  | .at => 150
  | .private_ => 151
  | .protected_ => 152
  | .public_ => 153
  | .bitwiseNot => 154

/-- The byte payload of a token kind (empty for kinds that carry none). -/
def TokenKind.payloadBytes : TokenKind → Bytes
  | .inlineHtml s => s
  | .identifier n => n
  | .qualifiedIdentifier n => n
  | .fullyQualifiedIdentifier n => n
  | .variable_ n => n
  | .literalInteger i => i
  | .literalFloat f => f
  | .literalString s => s
  | .stringPart s => s
  | .startDocString l _ => l
  | .endDocString l _ _ => l
  | .singleLineComment s => s
  | .multiLineComment s => s
  | .hashMarkComment s => s
  | .documentComment s => s
  | _ => []

/-- The numeric payload of a token kind: the doc-string discriminator and
the indentation data of `EndDocString` (zero for every other kind). -/
def TokenKind.payloadAux : TokenKind → Nat
  | .startDocString _ .heredoc => 0
  | .startDocString _ .nowdoc => 1
  | .endDocString _ none amount => 3 * amount
  | .endDocString _ (some .space) amount => 3 * amount + 1
  | .endDocString _ (some .tab) amount => 3 * amount + 2
  | _ => 0

/-- Equality of token kinds (Rust `PartialEq` on `TokenKind`): same
constructor and same payloads. -/
def TokenKind.beq (a b : TokenKind) : Bool :=
  a.tag == b.tag && a.payloadBytes == b.payloadBytes && a.payloadAux == b.payloadAux

instance : BEq TokenKind := ⟨TokenKind.beq⟩

/-- Decode bytes back into a `String` (for error payloads built from
identifier names). -/
def bytesToString (b : Bytes) : String := String.mk (b.map Char.ofNat)

/-- Modelled from the spec: the lexer's `Display` for token kinds, used by
`kind.to_string()` when building error payloads; the spec fixes the values
observable in the claims (`"=="` in scenario 3, the keyword texts returned
verbatim by `ident_maybe_reserved`, `";"`, `"=>"`, `"&"`, `"::"`). -/
def TokenKind.toStr : TokenKind → String
  | .eof => "eof"
  | .openTag => "open tag"
  | .closeTag => "?>"
  | .inlineHtml _ => "inline html"
  | .identifier n => bytesToString n
  | .qualifiedIdentifier n => bytesToString n
  | .fullyQualifiedIdentifier n => bytesToString n
  | .variable_ n => bytesToString n
  | .literalInteger i => bytesToString i
  | .literalFloat f => bytesToString f
  | .literalString _ => "string literal"
  | .stringPart _ => "string part"
  | .startDocString _ _ => "doc string start"
  | .endDocString _ _ _ => "doc string end"
  | .backtick => "`"
  | .doubleQuote => "\""
  | .dollarLeftBrace => "$\x7b"
  | .dollar => "$"
  | .singleLineComment _ => "comment"
  | .multiLineComment _ => "comment"
  | .hashMarkComment _ => "comment"
  | .documentComment _ => "comment"
  | .attribute => "#["
  | .namespace_ => "namespace"
  | .use_ => "use"
  | .const_ => "const"
  | .haltCompiler => "__halt_compiler"
  | .function => "function"
  | .fn_ => "fn"
  | .static_ => "static"
  | .abstract_ => "abstract"
  | .final_ => "final"
  | .readonly_ => "readonly"
  | .class_ => "class"
  | .interface => "interface"
  | .trait_ => "trait"
  | .enum_ => "enum"
  | .goto_ => "goto"
  | .declare => "declare"
  | .global_ => "global"
  | .do_ => "do"
  | .while_ => "while"
  | .for_ => "for"
  | .foreach => "foreach"
  | .switch => "switch"
  | .continue_ => "continue"
  | .break_ => "break"
  | .if_ => "if"
  | .else_ => "else"
  | .elseIf => "elseif"
  | .echo => "echo"
  | .returnKw => "return"
  | .semiColon => ";"
  | .try_ => "try"
  | .catch => "catch"
  | .finally => "finally"
  | .leftBrace => "\x7b"
  | .rightBrace => "\x7d"
  | .leftParen => "("
  | .rightParen => ")"
  | .leftBracket => "["
  | .rightBracket => "]"
  | .comma => ","
  | .colon => ":"
  | .doubleColon => "::"
  | .arrow => "->"
  | .nullsafeArrow => "?->"
  | .doubleArrow => "=>"
  | .equals => "="
  | .plus => "+"
  | .minus => "-"
  | .asterisk => "*"
  | .slash => "/"
  | .percent => "%"
  | .pow => "**"
  | .dot => "."
  | .question => "?"
  | .questionColon => "?:"
  | .coalesce => "??"
  | .bang => "!"
  | .ampersand => "&"
  | .pipe => "|"
  | .caret => "^"
  | .leftShift => "<<"
  | .rightShift => ">>"
  | .lessThan => "<"
  | .greaterThan => ">"
  | .lessThanEquals => "<="
  | .greaterThanEquals => ">="
  | .doubleEquals => "=="
  | .tripleEquals => "==="
  | .bangEquals => "!="
  | .bangDoubleEquals => "!=="
  | .angledLeftRight => "<>"
  | .spaceship => "<=>"
  | .booleanAnd => "&&"
  | .booleanOr => "||"
  | .logicalAnd => "and"
  | .logicalOr => "or"
  | .logicalXor => "xor"
  | .plusEquals => "+="
  | .minusEquals => "-="
  | .asteriskEqual => "*="
  | .slashEquals => "/="
  | .dotEquals => ".="
  | .percentEquals => "%="
  | .powEquals => "**="
  | .ampersandEquals => "&="
  | .pipeEquals => "|="
  | .caretEquals => "^="
  | .leftShiftEquals => "<<="
  | .rightShiftEquals => ">>="
  | .coalesceEqual => "??="
  | .increment => "++"
  | .decrement => "--"
  | .print => "print"
  | .new_ => "new"
  | .clone_ => "clone"
  | .throw_ => "throw"
  | .yield_ => "yield"
  | .fromKw => "from"
  | .match_ => "match"
  | .default_ => "default"
  | .array => "array"
  | .list => "list"
  | .ellipsis => "..."
  | .as_ => "as"
  | .instanceof => "instanceof"
  | .self_ => "self"
  | .parent_ => "parent"
  | .true_ => "true"
  | .false_ => "false"
  | .null => "null"
  | .dirConstant => "__DIR__"
  | .includeKw => "include"
  | .includeOnce => "include_once"
  | .requireKw => "require"
  | .requireOnce => "require_once"
  | .stringCast => "(string)"
  | .binaryCast => "(binary)"
  | .objectCast => "(object)"
  | .boolCast => "(bool)"
  | .booleanCast => "(boolean)"
  | .intCast => "(int)"
  | .integerCast => "(integer)"
  | .floatCast => "(float)"
  | .doubleCast => "(double)"
  | .realCast => "(real)"
  | .unsetCast => "(unset)"
  | .arrayCast => "(array)"
  | .at => "@"
  | .private_ => "private"
  | .protected_ => "protected"
  | .public_ => "public"
  | .bitwiseNot => "~"

/-- Modelled from the spec: a lexer token, `{ kind, span }` (`§6`). -/
structure Token where
  kind : TokenKind
  span : Span

/-- `Token::default()`: the `Eof` sentinel with the zero span, substituted
when the token iterator is exhausted. -/
def defaultToken : Token := ⟨.eof, (0, 0)⟩

/-- The ordered enumeration of precedence classes, lowest to highest.  The
constructor list and order are those of
`src/trunk_parser/src/parser/precedence.rs` (`CloneNew` there) and of the
spec's `§4.1` table (`CloneOrNew`), which agree; the active engine's copy
(`parser::internal::precedences`, not under `src/`) is the same table per
the spec.  `prefixLevel` is the class the sources call `Prefix`. -/
inductive Precedence where
  | lowest
  | cloneOrNew
  | pow
  | prefixLevel
  | instanceof
  | bang
  | mulDivMod
  | addSub
  | bitShift
  | concat
  | ltGt
  | equality
  | bitwiseAnd
  | bitwiseXor
  | bitwiseOr
  | and
  | or
  | nullCoalesce
  | ternary
  | assignment
  | yieldFrom
  | yield
  | print
  | keyAnd
  | keyXor
  | keyOr
  | callDim
  | objectAccess
  | incDec
deriving DecidableEq, Repr

/-- Position of a precedence class in the order; the Rust code compares
classes through the derived `PartialOrd`/`Ord` on the declaration order. -/
def Precedence.toNat : Precedence → Nat
  | .lowest => 0
  | .cloneOrNew => 1
  | .pow => 2
  | .prefixLevel => 3
  | .instanceof => 4
  | .bang => 5
  | .mulDivMod => 6
  | .addSub => 7
  | .bitShift => 8
  | .concat => 9
  | .ltGt => 10
  | .equality => 11
  | .bitwiseAnd => 12
  | .bitwiseXor => 13
  | .bitwiseOr => 14
  | .and => 15
  | .or => 16
  | .nullCoalesce => 17
  | .ternary => 18
  | .assignment => 19
  | .yieldFrom => 20
  | .yield => 21
  | .print => 22
  | .keyAnd => 23
  | .keyXor => 24
  | .keyOr => 25
  | .callDim => 26
  | .objectAccess => 27
  | .incDec => 28

/-- Associativity classes (`Associativity` in `precedence.rs`). -/
inductive Associativity where
  | non
  | left
  | right
deriving DecidableEq, Repr

/-- `Precedence::associativity` as written in
`src/trunk_parser/src/parser/precedence.rs`; the spec's `§4.1` associativity
table for the active engine is identical. -/
def Precedence.associativity : Precedence → Option Associativity
  | .instanceof
  | .mulDivMod
  | .addSub
  | .bitShift
  | .concat
  | .bitwiseAnd
  | .bitwiseOr
  | .bitwiseXor
  | .and
  | .or
  | .keyAnd
  | .keyOr
  | .keyXor => some .left
  | .pow | .nullCoalesce | .assignment => some .right
  | .ternary | .equality | .ltGt => some .non
  | _ => none

/-- `Precedence::prefix` as written in
`src/trunk_parser/src/parser/precedence.rs` (the spec's `§4.1` `prefix(kind)`
for the active engine is the same): `Bang` for `!`, `CloneOrNew` for
`clone`/`new`, otherwise `Prefix`. -/
def Precedence.prefixPrec (kind : TokenKind) : Precedence :=
  match kind with
  | .bang => .bang
  | .clone_ | .new_ => .cloneOrNew
  | _ => .prefixLevel

/-- `Precedence::infix` as written in
`src/trunk_parser/src/parser/precedence.rs` lines 47-71.  The
`_ => unimplemented!(...)` arm (a panic) is `none`.  `AndEqual` in the
trunk lexer is the `&=` token (`ampersandEquals` here). -/
def Precedence.infixTrunk (kind : TokenKind) : Option Precedence :=
  match kind with
  | .pow => some .pow
  | .instanceof => some .instanceof
  | .asterisk | .slash | .percent => some .mulDivMod
  | .plus | .minus => some .addSub
  | .leftShift | .rightShift => some .bitShift
  | .dot => some .concat
  | .lessThan | .lessThanEquals | .greaterThan | .greaterThanEquals => some .ltGt
  | .doubleEquals | .bangEquals | .tripleEquals | .bangDoubleEquals => some .equality
  | .ampersand => some .bitwiseAnd
  | .caret => some .bitwiseXor
  | .pipe => some .bitwiseOr
  | .booleanAnd => some .and
  | .booleanOr => some .or
  | .coalesce => some .nullCoalesce
  | .question => some .ternary
  | .equals | .plusEquals | .minusEquals | .asteriskEqual | .powEquals | .slashEquals
  | .dotEquals | .ampersandEquals | .coalesceEqual => some .assignment
  | .yield_ => some .yield
  | _ => none

/-- Modelled from the spec: `infix(kind)` of the ACTIVE engine's precedence
table (`parser::internal::precedences`, not under `src/`).  Per `§4.1`, it
"returns the class matching the operator family (standard PHP precedence;
`=`-family all map to `Assignment`, comparisons to `Equality`/`LtGt`, etc.)"
and "fails for non-infix tokens"; the failure (a panic in the Rust code) is
`none`.  The domain is exactly the token set `is_infix` accepts
(`src/src/parser/mod.rs` lines 1516-1564). -/
def Precedence.infixFull (kind : TokenKind) : Option Precedence :=
  match kind with
  | .pow => some .pow
  | .instanceof => some .instanceof
  | .asterisk | .slash | .percent => some .mulDivMod
  | .plus | .minus => some .addSub
  | .leftShift | .rightShift => some .bitShift
  | .dot => some .concat
  | .lessThan | .lessThanEquals | .greaterThan | .greaterThanEquals => some .ltGt
  | .doubleEquals | .bangEquals | .tripleEquals | .bangDoubleEquals
  | .angledLeftRight | .spaceship => some .equality
  | .ampersand => some .bitwiseAnd
  | .caret => some .bitwiseXor
  | .pipe => some .bitwiseOr
  | .booleanAnd => some .and
  | .booleanOr => some .or
  | .logicalAnd => some .keyAnd
  | .logicalXor => some .keyXor
  | .logicalOr => some .keyOr
  | .question | .questionColon => some .ternary
  | .equals | .plusEquals | .minusEquals | .asteriskEqual | .slashEquals
  | .dotEquals | .percentEquals | .powEquals | .ampersandEquals | .pipeEquals
  | .caretEquals | .leftShiftEquals | .rightShiftEquals | .coalesceEqual =>
    some .assignment
  | _ => none

/-- `Precedence::postfix` as written in
`src/trunk_parser/src/parser/precedence.rs` (the spec's `§4.1`
`postfix(kind)` for the active engine is the same); the
`unimplemented!` arm is `none`. -/
def Precedence.postfixPrec (kind : TokenKind) : Option Precedence :=
  match kind with
  | .coalesce => some .nullCoalesce
  | .increment | .decrement => some .incDec
  | .leftParen | .leftBracket => some .callDim
  | .arrow | .nullsafeArrow | .doubleColon => some .objectAccess
  | _ => none

/-- `is_prefix` from `src/src/parser/mod.rs` lines 1431-1456. -/
def isPrefixOp (op : TokenKind) : Bool :=
  match op with
  | .bang
  | .print
  | .bitwiseNot
  | .decrement
  | .increment
  | .minus
  | .plus
  | .stringCast
  | .binaryCast
  | .objectCast
  | .boolCast
  | .booleanCast
  | .intCast
  | .integerCast
  | .floatCast
  | .doubleCast
  | .realCast
  | .unsetCast
  | .arrayCast
  | .at => true
  | _ => false

/-- `is_infix` from `src/src/parser/mod.rs` lines 1516-1564. -/
def isInfixOp (t : TokenKind) : Bool :=
  match t with
  | .pow
  | .rightShiftEquals
  | .leftShiftEquals
  | .caretEquals
  | .ampersandEquals
  | .pipeEquals
  | .percentEquals
  | .powEquals
  | .logicalAnd
  | .logicalOr
  | .logicalXor
  | .spaceship
  | .leftShift
  | .rightShift
  | .ampersand
  | .pipe
  | .caret
  | .percent
  | .instanceof
  | .asterisk
  | .slash
  | .plus
  | .minus
  | .dot
  | .lessThan
  | .greaterThan
  | .lessThanEquals
  | .greaterThanEquals
  | .doubleEquals
  | .tripleEquals
  | .bangEquals
  | .bangDoubleEquals
  | .angledLeftRight
  | .question
  | .questionColon
  | .booleanAnd
  | .booleanOr
  | .equals
  | .plusEquals
  | .minusEquals
  | .dotEquals
  | .coalesceEqual
  | .asteriskEqual
  | .slashEquals => true
  | _ => false

/-- `is_postfix` from `src/src/parser/mod.rs` lines 1566-1579. -/
def isPostfixOp (t : TokenKind) : Bool :=
  match t with
  | .increment
  | .decrement
  | .leftParen
  | .leftBracket
  | .arrow
  | .nullsafeArrow
  | .doubleColon
  | .coalesce => true
  | _ => false

/-- The four comment token formats, as matched by `state.skip_comments()` /
`state.gather_comments()` and the comment-statement branches. -/
def isCommentKind (t : TokenKind) : Bool :=
  match t with
  | .singleLineComment _ | .multiLineComment _
  | .hashMarkComment _ | .documentComment _ => true
  | _ => false

/-- `matches!(kind, TokenKind::Identifier(_))`, used by the `function`/`&`
lookahead. -/
def isIdentifierKind (t : TokenKind) : Bool :=
  match t with
  | .identifier _ => true
  | _ => false

/-- `matches!(kind, TokenKind::Variable(_))`. -/
def isVariableKind (t : TokenKind) : Bool :=
  match t with
  | .variable_ _ => true
  | _ => false

/-- `matches!(kind, TokenKind::EndDocString(_, _, _))`. -/
def isEndDocStringKind (t : TokenKind) : Bool :=
  match t with
  | .endDocString _ _ _ => true
  | _ => false

/-- `is_reserved_ident` (`parser::internal::identifiers`): the reserved
keywords accepted in identifier positions.  The list is the one written in
`src/trunk_parser/src/parser/ident.rs` (`ident_maybe_reserved`) and in the
spec's `§4.2`. -/
def isReservedIdent (t : TokenKind) : Bool :=
  match t with
  | .static_ | .abstract_ | .final_ | .for_ | .private_ | .protected_
  | .public_ | .requireKw | .requireOnce | .new_ | .clone_ | .if_ | .else_
  | .elseIf | .default_ | .enum_ | .match_ | .catch | .finally
  | .namespace_ => true
  | _ => false

/-- Modelled from the spec: an identifier node `{ start, name: bytes, end }`
(`§3`); `stop` is the source's `end` field (a Lean keyword). -/
structure Identifier where
  start : Span
  name : Bytes
  stop : Span

/-- Modelled from the spec: a variable node `{ start, name: bytes, end }`,
the `$`-prefixed form with the `$` implicit (`§3`). -/
structure Variable where
  start : Span
  name : Bytes
  stop : Span

/-- Modelled from the spec: the `use` kind disambiguator (`Use{uses, kind}`,
`§3`), selected by an optional `function` / `const` keyword. -/
inductive UseKind where
  | normal
  | function
  | const
deriving DecidableEq, Repr

/-- Modelled from the spec: a single `use` item `name [as alias]` (the
`Use { name, alias }` struct consumed by `Statement::Use`/`GroupUse`). -/
structure UseItem where
  name : Identifier
  alias_ : Option Identifier

/-- Modelled from the spec: comment formats (`§4.6`, four formats). -/
inductive CommentFormat where
  | singleLine
  | multiLine
  | hashMark
  | document
deriving DecidableEq, Repr

/-- Modelled from the spec: a comment node with its span anchors. -/
structure CommentNode where
  start : Span
  stop : Span
  format : CommentFormat
  content : Bytes

/-- Modelled from the spec: `IncludeKind`, derived `From<&TokenKind>` on the
four include/require tokens. -/
inductive IncludeKind where
  | include_
  | includeOnce
  | require_
  | requireOnce
deriving DecidableEq, Repr

/-- The `(&TokenKind).into()` conversion used by the include branch. -/
def IncludeKind.ofToken (t : TokenKind) : IncludeKind :=
  match t with
  | .includeOnce => .includeOnce
  | .requireKw => .require_
  | .requireOnce => .requireOnce
  | _ => .include_

/-- Modelled from the spec: cast kinds (`Cast{kind, value}`, `§3`), one per
cast token. -/
inductive CastKind where
  | string
  | binary
  | object
  | bool
  | boolean
  | int
  | integer
  | float
  | double
  | real
  | unset
  | array
deriving DecidableEq, Repr

/-- The `op.into()` conversion from cast tokens used by `prefix()`. -/
def CastKind.ofToken (t : TokenKind) : CastKind :=
  match t with
  | .binaryCast => .binary
  | .objectCast => .object
  | .boolCast => .bool
  | .booleanCast => .boolean
  | .intCast => .int
  | .integerCast => .integer
  | .floatCast => .float
  | .doubleCast => .double
  | .realCast => .real
  | .unsetCast => .unset
  | .arrayCast => .array
  | _ => .string

/-- Modelled from the spec: magic constants; only `__DIR__` is recognized by
the embedded expression engine. -/
inductive MagicConst where
  | dir
deriving DecidableEq, Repr

/-- Modelled from the spec: the operator payload of `Infix{lhs, op, rhs}`.
`ast::InfixOp` is not under `src/`; the embedding records the operator's
token kind, with reference-assignment (`=` with `by_ref`) distinguished as
`assignRef`, exactly the two cases `infix()` in `mod.rs` separates. -/
inductive InfixOp where
  | assignRef
  | op (t : TokenKind)

mutual

/-- The expression nodes of `§3`, restricted to the variants the embedded
engine builds.  Variants produced only by recognizers whose source is not
under `src/` (closures, `list(...)`, short arrays) are absent: the embedded
engine reports `ParseError.unmodelled` on those paths instead. -/
inductive Expression where
  | literalInteger (i : Bytes)
  | literalFloat (f : Bytes)
  | literalString (value : Bytes)
  | bool (value : Bool)
  | null
  | variable_ (v : Variable)
  | dynamicVariable (name : Expression)
  | identifier (i : Identifier)
  | self_
  | static_
  | parent_
  | array (items : List ArrayItem)
  | interpolatedString (parts : List StringPart)
  | heredoc (parts : List StringPart)
  | nowdoc (value : Bytes)
  | shellExec (parts : List StringPart)
  | call (target : Expression) (args : List Arg)
  | methodCall (target : Expression) (method : Expression) (args : List Arg)
  | nullsafeMethodCall (target : Expression) (method : Expression) (args : List Arg)
  | staticMethodCall (target : Expression) (method : Expression) (args : List Arg)
  | propertyFetch (target : Expression) (property : Expression)
  | nullsafePropertyFetch (target : Expression) (property : Expression)
  | staticPropertyFetch (target : Expression) (property : Expression)
  | constFetch (target : Expression) (constant : Identifier)
  | arrayIndex (arr : Expression) (index : Option Expression)
  | new_ (target : Expression) (args : List Arg)
  | clone_ (target : Expression)
  | throw_ (value : Expression)
  | yield_ (key : Option Expression) (value : Option Expression)
  | yieldFrom (value : Expression)
  | match_ (condition : Expression) (arms : List MatchArm) (default : Option DefaultMatchArm)
  | ternary (condition : Expression) (then_ : Option Expression) (else_ : Expression)
  | coalesce (lhs : Expression) (rhs : Expression)
  | infixExpr (lhs : Expression) (op : InfixOp) (rhs : Expression)
  | booleanNot (value : Expression)
  | negate (value : Expression)
  | unaryPlus (value : Expression)
  | bitwiseNot (value : Expression)
  | preIncrement (value : Expression)
  | preDecrement (value : Expression)
  | increment (value : Expression)
  | decrement (value : Expression)
  | cast (kind : CastKind) (value : Expression)
  | errorSuppress (expr : Expression)
  | print (value : Expression)
  | magicConst (constant : MagicConst)
  | includeExpr (kind : IncludeKind) (path : Expression)

/-- `ArrayItem { key, value, unpack, by_ref }`. -/
inductive ArrayItem where
  | mk (key : Option Expression) (value : Expression) (unpack : Bool) (byRef : Bool)

/-- `MatchArm { conditions, body }`. -/
inductive MatchArm where
  | mk (conditions : List Expression) (body : Expression)

/-- `DefaultMatchArm { body }`. -/
inductive DefaultMatchArm where
  | mk (body : Expression)

/-- `StringPart`: `Const(bytes)` or `Expr(expression)` (`§4.5`). -/
inductive StringPart where
  | const (b : Bytes)
  | expr (e : Expression)

/-- Modelled from the spec: one argument of an argument list; the spread
(`...`) flag per the glossary.  The argument-list recognizer itself is not
under `src/`. -/
inductive Arg where
  | mk (value : Expression) (unpack : Bool)

end

/-- `Constant { name, value }` of `Statement::Constant`. -/
structure ConstantDef where
  name : Identifier
  value : Expression

/-- `DeclareItem { key, value }` of `Statement::Declare`. -/
structure DeclareItem where
  key : Identifier
  value : Expression

/-- `StaticVar { var, default }` of `Statement::Static`. -/
structure StaticVar where
  var : Variable
  default : Option Expression

/-- The statement nodes of `§3` built by the embedded statement recognizer.
Statement kinds whose recognizers are not under `src/` (classes, loops,
`if`, `try`, blocks, namespaces, functions) are absent: those dispatch arms
report `ParseError.unmodelled`. -/
inductive Statement where
  | inlineHtml (s : Bytes)
  | groupUse (prefix_ : Identifier) (kind : UseKind) (uses : List UseItem)
  | use_ (uses : List UseItem) (kind : UseKind)
  | constant (constants : List ConstantDef)
  | haltCompiler (content : Option Bytes)
  | goto_ (label : Identifier)
  | label (label : Identifier)
  | declare (declares : List DeclareItem) (body : List Statement)
  | global_ (vars : List Variable)
  | static_ (vars : List StaticVar)
  | comment (c : CommentNode)
  | echo (values : List Expression)
  | returnStmt (value : Option Expression)
  | noop
  | expressionStmt (expr : Expression)

/-- `Program`: the ordered sequence of top-level statements. -/
abbrev Program := List Statement

/-- The error taxonomy of `§7`, restricted to the variants the embedded
code raises, plus two embedding artifacts: `outOfFuel` (the recursion
budget, never raised by the Rust code) and `unmodelled` (a call into a
recognizer whose source is not under `src/`). `unimplementedPrecedence`
stands for the `unimplemented!` panic of the precedence lookups. -/
inductive ParseError where
  | unexpectedEndOfFile
  | unexpectedToken (kind : String) (span : Span)
  | expectedToken (expected : List String) (got : String) (span : Span)
  | expectedItemDefinitionAfterAttributes (span : Span)
  | cannotFindTypeInCurrentScope (kind : String) (span : Span)
  | matchExpressionWithMultipleDefaultArms (span : Span)
  | outOfFuel
  | unmodelled (what : String)
  | unimplementedPrecedence (kind : String)

/-- Modelled from the spec: the parser state (`§4.3`): current token, the
one-token peek, the iterator of further tokens, the pending-comments buffer
and the two scope flags. -/
structure State where
  current : Token
  peek : Token
  iter : List Token
  comments : List Token
  hasClassScope : Bool
  hasClassParentScope : Bool

namespace State

/-- `State::new(tokens)`: fill `current` and `peek` from the front of the
stream (the `Eof` default when absent), scope flags cleared. -/
def new (tokens : List Token) : State :=
  { current := tokens.headD defaultToken
    peek := (tokens.drop 1).headD defaultToken
    iter := tokens.drop 2
    comments := []
    hasClassScope := false
    hasClassParentScope := false }

/-- `state.next()`: shift the window one token forward, pulling from the
iterator (the `Eof` default when exhausted). -/
def next (s : State) : State :=
  { s with
    current := s.peek
    peek := s.iter.headD defaultToken
    iter := s.iter.drop 1 }

/-- `state.is_eof()`. -/
def isEof (s : State) : Bool := s.current.kind == TokenKind.eof

/-- Auxiliary recursion for `skip_comments` / `gather_comments`, bounded by
the stream length (after that many `next`s the current token is `Eof`,
which is not a comment). `gather` records the skipped tokens in the
pending-comments buffer. -/
def skipCommentsAux : Nat → Bool → State → State
  | 0, _, s => s
  | n + 1, gather, s =>
    if isCommentKind s.current.kind then
      skipCommentsAux n gather
        (if gather then { s.next with comments := s.comments ++ [s.current] } else s.next)
    else s

/-- `state.skip_comments()`: advance past comment tokens. -/
def skipComments (s : State) : State :=
  skipCommentsAux (s.iter.length + 2) false s

/-- `state.gather_comments()`: pull comment tokens into the buffer,
advancing past them. -/
def gatherComments (s : State) : State :=
  skipCommentsAux (s.iter.length + 2) true s

/-- `state.clear_comments()` (the drained comments themselves are unused by
the embedded recognizers). -/
def clearComments (s : State) : State := { s with comments := [] }

end State

/-- The result type of the embedded fallible recognizers.  Rust mutates
`&mut State` in place, so an error also carries the state reached when it
was raised (`Parser::statement`'s `Return` branch observes it through
`.ok()`). -/
abbrev PRes (α : Type) := Except (ParseError × State) (α × State)

namespace Identifiers

/-- Modelled from the spec: `ident` (`§4.2`) — accepts a bare identifier
token only, fails with "expected identifier"; written as in
`src/trunk_parser/src/parser/ident.rs`, producing the spanned `Identifier`
node of `§3`.  The node's `stop` is the span of the following token, the
idiom the `class` arm of `Parser::postfix` uses. -/
def ident (s : State) : PRes Identifier :=
  match s.current.kind with
  | .identifier n => .ok (⟨s.current.span, n, s.peek.span⟩, s.next)
  | _ => .error (.expectedToken ["an identifier"] s.current.kind.toStr s.current.span, s)

/-- Modelled from the spec: `full_name` (`§4.2`) — accepts bare, qualified
or fully-qualified identifiers. -/
def fullName (s : State) : PRes Identifier :=
  match s.current.kind with
  | .identifier n
  | .qualifiedIdentifier n
  | .fullyQualifiedIdentifier n =>
    .ok (⟨s.current.span, n, s.peek.span⟩, s.next)
  | _ => .error (.expectedToken ["an identifier"] s.current.kind.toStr s.current.span, s)

/-- Modelled from the spec: `var` (`§4.2`) — accepts a variable token and
yields its name bytes. -/
def var (s : State) : PRes Variable :=
  match s.current.kind with
  | .variable_ n => .ok (⟨s.current.span, n, s.peek.span⟩, s.next)
  | _ =>
    .error (.expectedToken ["a variable"] s.current.kind.toStr s.current.span, s)

/-- Modelled from the spec: `ident_maybe_reserved` (`§4.2`) — additionally
accepts the reserved keywords of `isReservedIdent`, returning the keyword
text verbatim (`self.current.kind.to_string().into()` in
`src/trunk_parser/src/parser/ident.rs`). -/
def identMaybeReserved (s : State) : PRes Identifier :=
  if isReservedIdent s.current.kind then
    .ok (⟨s.current.span, strBytes s.current.kind.toStr, s.peek.span⟩, s.next)
  else ident s

end Identifiers

namespace Utils

/-- Modelled from the spec: the `utils::skip_*` family — require one
specific token kind, yield its span and advance, or fail with
`ExpectedToken` (`§7`). -/
def skip (s : State) (kind : TokenKind) : PRes Span :=
  if s.current.kind == kind then .ok (s.current.span, s.next)
  else .error (.expectedToken [kind.toStr] s.current.kind.toStr s.current.span, s)

end Utils

/-- Modelled from the spec: the `expect_literal!` macro — accepts an
integer, float or string literal token (used by `declare`). -/
def expectLiteral (s : State) : PRes Expression :=
  match s.current.kind with
  | .literalInteger i => .ok (.literalInteger i, s.next)
  | .literalFloat f => .ok (.literalFloat f, s.next)
  | .literalString v => .ok (.literalString v, s.next)
  | _ => .error (.expectedToken ["a literal"] s.current.kind.toStr s.current.span, s)

/-- One step of the heredoc dedent loop:
`if bytes.starts_with(&[search_char]) { bytes.remove(0) }`. -/
def stripOnce (c : Nat) (b : Bytes) : Bytes :=
  match b with
  | b0 :: rest => if b0 = c then rest else b0 :: rest
  | [] => []

/-- The dedent loop of `Parser::doc_string`:
`for _ in 0..indentation_amount { if starts_with { remove(0) } }`. -/
def stripIndent (c : Nat) : Nat → Bytes → Bytes
  | 0, b => b
  | n + 1, b => stripIndent c n (stripOnce c b)

/-- The per-part heredoc dedent (`for part in parts.iter_mut()`): `Const`
parts lose up to `amount` leading `c` bytes, other parts are unchanged. -/
def dedentPart (c : Nat) (amount : Nat) : StringPart → StringPart
  | .const b => .const (stripIndent c amount b)
  | p => p

/-- `s.split(|b| *b == b'\n')`: split on every newline byte; `n` separators
yield `n + 1` pieces (empty pieces included). -/
def splitOnNewline : Bytes → List Bytes
  | [] => [[]]
  | b :: rest =>
    if b = 10 then [] :: splitOnNewline rest
    else
      match splitOnNewline rest with
      | l :: ls => (b :: l) :: ls
      | [] => [[b]]

/-- The nowdoc rebuild loop: emit each line, with a newline byte after all
but the last (`if i < lines.len() - 1 { bytes.push(b'\n') }`). -/
def joinLines : List Bytes → Bytes
  | [] => []
  | [l] => l
  | l :: ls => l ++ 10 :: joinLines ls

/-- The nowdoc dedent of `Parser::doc_string`: split the single literal body
into lines, strip up to `amount` leading `c` bytes from each line, rejoin
with newlines. -/
def nowdocDedent (c : Nat) (amount : Nat) (s : Bytes) : Bytes :=
  joinLines ((splitOnNewline s).map (stripIndent c amount))

/-- The `prefix` free function of `src/src/parser/mod.rs` lines 1459-1502,
building the node for a prefix operator.  The `unreachable!()` arm (never
taken: callers guard with `is_prefix`) is mapped to `.null`. -/
def applyPrefixOp (op : TokenKind) (rhs : Expression) : Expression :=
  match op with
  | .print => .print rhs
  | .bang => .booleanNot rhs
  | .minus => .negate rhs
  | .plus => .unaryPlus rhs
  | .bitwiseNot => .bitwiseNot rhs
  | .decrement => .preDecrement rhs
  | .increment => .preIncrement rhs
  | .stringCast | .binaryCast | .objectCast | .boolCast | .booleanCast
  | .intCast | .integerCast | .floatCast | .doubleCast | .realCast
  | .unsetCast | .arrayCast => .cast (CastKind.ofToken op) rhs
  | .at => .errorSuppress rhs
  | _ => .null

/-- The `infix` free function of `src/src/parser/mod.rs` lines 1504-1514:
`=` with `by_ref` becomes reference assignment, every other operator keeps
its token. -/
def mkInfixExpr (lhs : Expression) (op : TokenKind) (rhs : Expression) (byRef : Bool) :
    Expression :=
  .infixExpr lhs
    (match op, byRef with
      | .equals, true => .assignRef
      | k, _ => .op k)
    rhs

/-- The epilogue of `Parser::statement` (lines 507-512): skip comments,
then silently absorb one closing `?>` tag. -/
def stmtEpilogue (s : State) : State :=
  let s := s.skipComments
  if s.current.kind == .closeTag then s.next else s

mutual

/-- Modelled from the spec: `gather_attributes` — consume zero or more
`#[Attr(args), …]` groups into the pending list, answering whether any was
present (`§4.6`); the recognizer itself is not under `src/`.  When the
current token is not `#[` it reports `false` without consuming anything. -/
def gatherAttributes : Nat → State → PRes Bool
  | fuel, s =>
    if s.current.kind == .attribute then
      match fuel with
      | 0 => .error (.outOfFuel, s)
      | fuel + 1 =>
        match attrGroup fuel s.next with
        | .error e => .error e
        | .ok (_, s1) =>
          match gatherAttributes fuel s1 with
          | .error e => .error e
          | .ok (_, s2) => .ok (true, s2)
    else .ok (false, s)

/-- Modelled from the spec: one `#[ ... ]` group — comma-separated
attribute names, each with an optional argument list, up to `]`. -/
def attrGroup : Nat → State → PRes Unit
  | 0, s => .error (.outOfFuel, s)
  | fuel + 1, s =>
    match Identifiers.fullName s with
    | .error e => .error e
    | .ok (_, s1) =>
      match
        (if s1.current.kind == .leftParen then
          match argsList fuel s1 with
          | .error e => .error e
          | .ok (_, s2) => .ok ((), s2)
        else .ok ((), s1) : PRes Unit)
      with
      | .error e => .error e
      | .ok (_, s2) =>
        if s2.current.kind == .comma then attrGroup fuel s2.next
        else
          match Utils.skip s2 .rightBracket with
          | .error e => .error e
          | .ok (_, s3) => .ok ((), s3)

/-- Modelled from the spec: `args_list` — `(`, then comma-separated
arguments each optionally prefixed by spread `...`, up to `)` (`§4.4`,
glossary); the recognizer itself is not under `src/`. -/
def argsList : Nat → State → PRes (List Arg)
  | 0, s => .error (.outOfFuel, s)
  | fuel + 1, s =>
    match Utils.skip s .leftParen with
    | .error e => .error e
    | .ok (_, s1) => argsLoop fuel s1 []

/-- The item loop of `argsList`. -/
def argsLoop : Nat → State → List Arg → PRes (List Arg)
  | 0, s, _ => .error (.outOfFuel, s)
  | fuel + 1, s, acc =>
    if s.current.kind == .rightParen then .ok (acc, s.next)
    else
      let (unpack, s1) :=
        if s.current.kind == .ellipsis then (true, s.next) else (false, s)
      match expression fuel s1 .lowest with
      | .error e => .error e
      | .ok (v, s2) =>
        let acc := acc ++ [Arg.mk v unpack]
        if s2.current.kind == .comma then argsLoop fuel s2.next acc
        else
          match Utils.skip s2 .rightParen with
          | .error e => .error e
          | .ok (_, s3) => .ok (acc, s3)

/-- Modelled from the spec: `dynamic_variable` — the `$` prefix form
(`§4.4`): `${expr}` or `$$…`/`$var`; the recognizer itself is not under
`src/`. -/
def dynamicVariable : Nat → State → PRes Expression
  | 0, s => .error (.outOfFuel, s)
  | fuel + 1, s =>
    let s1 := s.next
    match s1.current.kind with
    | .leftBrace =>
      match expression fuel s1.next .lowest with
      | .error e => .error e
      | .ok (name, s2) =>
        match Utils.skip s2 .rightBrace with
        | .error e => .error e
        | .ok (_, s3) => .ok (.dynamicVariable name, s3)
    | .variable_ n =>
      .ok (.dynamicVariable (.variable_ ⟨s1.current.span, n, s1.peek.span⟩), s1.next)
    | _ =>
      .error (.expectedToken ["`\x7b`", "a variable"] s1.current.kind.toStr
        s1.current.span, s1)

/-- `Parser::expression` (`src/src/parser/mod.rs` lines 517-991): EOF
check, attribute gathering, prefix phase (`exprFirst`), early return on
`;`, then the infix/postfix phase (`exprLoop`) and a final comment skip. -/
def expression : Nat → State → Precedence → PRes Expression
  | 0, s, _ => .error (.outOfFuel, s)
  | fuel + 1, s, prec =>
    if s.isEof then .error (.unexpectedEndOfFile, s)
    else
      match gatherAttributes fuel s with
      | .error e => .error e
      | .ok (hasAttributes, s1) =>
        match exprFirst fuel s1 hasAttributes with
        | .error e => .error e
        | .ok (left, s2) =>
          if s2.current.kind == .semiColon then .ok (left, s2)
          else
            match exprLoop fuel left s2.skipComments prec with
            | .error e => .error e
            | .ok (l, s3) => .ok (l, s3.skipComments)

/-- The prefix phase of `Parser::expression`: the keyword-indexed dispatch
building the initial `left` expression (lines 524-901).  Recognizers whose
source is not under `src/` (closures, `list`, short arrays, anonymous
classes) surface as `ParseError.unmodelled`. -/
def exprFirst : Nat → State → Bool → PRes Expression
  | 0, s, _ => .error (.outOfFuel, s)
  | fuel + 1, s, hasAttributes =>
    if hasAttributes then
      match s.current.kind with
      | .static_ =>
        if s.peek.kind == .function then .error (.unmodelled "anonymous_function", s)
        else if s.peek.kind == .fn_ then .error (.unmodelled "arrow_function", s)
        else .error (.expectedItemDefinitionAfterAttributes s.current.span, s)
      | .function => .error (.unmodelled "anonymous_function", s)
      | .fn_ => .error (.unmodelled "arrow_function", s)
      | _ => .error (.expectedItemDefinitionAfterAttributes s.current.span, s)
    else
      match s.current.kind with
      | .list => .error (.unmodelled "list_expression", s)
      | .static_ =>
        if s.peek.kind == .function then .error (.unmodelled "anonymous_function", s)
        else if s.peek.kind == .fn_ then .error (.unmodelled "arrow_function", s)
        else if !s.hasClassScope then
          .error (.cannotFindTypeInCurrentScope s.current.kind.toStr s.current.span, s)
        else postfixOp fuel s.next .static_ .doubleColon
      | .function => .error (.unmodelled "anonymous_function", s)
      | .fn_ => .error (.unmodelled "arrow_function", s)
      | .new_ =>
        if s.peek.kind == .class_ || s.peek.kind == .attribute then
          .error (.unmodelled "anonymous_class_definition", s)
        else
          match expression fuel s.next .cloneOrNew with
          | .error e => .error e
          | .ok (target, s1) =>
            if s1.current.kind == .leftParen then
              match argsList fuel s1 with
              | .error e => .error e
              | .ok (args, s2) => .ok (.new_ target args, s2)
            else .ok (.new_ target [], s1)
      | .throw_ =>
        match expression fuel s.next .lowest with
        | .error e => .error e
        | .ok (value, s1) => .ok (.throw_ value, s1)
      | .yield_ =>
        let s1 := s.next
        if s1.current.kind == .semiColon then .ok (.yield_ none none, s1)
        else
          let (from_, s2) :=
            if s1.current.kind == .fromKw then (true, s1.next) else (false, s1)
          match
            expression fuel s2 (if from_ then Precedence.yieldFrom else Precedence.yield)
          with
          | .error e => .error e
          | .ok (value, s3) =>
            if s3.current.kind == .doubleArrow && !from_ then
              match expression fuel s3.next Precedence.yield with
              | .error e => .error e
              | .ok (value2, s4) => .ok (.yield_ (some value) (some value2), s4)
            else if from_ then .ok (.yieldFrom value, s3)
            else .ok (.yield_ none (some value), s3)
      | .clone_ =>
        match expression fuel s.next .cloneOrNew with
        | .error e => .error e
        | .ok (target, s1) => .ok (.clone_ target, s1)
      | .variable_ _ =>
        match Identifiers.var s with
        | .error e => .error e
        | .ok (v, s1) => .ok (.variable_ v, s1)
      | .literalInteger i => .ok (.literalInteger i, s.next)
      | .literalFloat f => .ok (.literalFloat f, s.next)
      | .identifier _ | .qualifiedIdentifier _ | .fullyQualifiedIdentifier _ =>
        match Identifiers.fullName s with
        | .error e => .error e
        | .ok (idn, s1) => .ok (.identifier idn, s1)
      | .self_ =>
        if !s.hasClassScope then
          .error (.cannotFindTypeInCurrentScope s.current.kind.toStr s.current.span, s)
        else postfixOp fuel s.next .self_ .doubleColon
      | .parent_ =>
        if !s.hasClassParentScope then
          .error (.cannotFindTypeInCurrentScope s.current.kind.toStr s.current.span, s)
        else postfixOp fuel s.next .parent_ .doubleColon
      | .literalString v => .ok (.literalString v, s.next)
      | .stringPart _ =>
        match interpLoop fuel s .doubleQuote [] with
        | .error e => .error e
        | .ok (parts, s1) => .ok (.interpolatedString parts, s1)
      | .startDocString _ kind => docString fuel s kind
      | .backtick =>
        match interpLoop fuel s.next .backtick [] with
        | .error e => .error e
        | .ok (parts, s1) => .ok (.shellExec parts, s1)
      | .true_ => .ok (.bool true, s.next)
      | .false_ => .ok (.bool false, s.next)
      | .null => .ok (.null, s.next)
      | .leftParen =>
        match expression fuel s.next .lowest with
        | .error e => .error e
        | .ok (e, s1) =>
          match Utils.skip s1 .rightParen with
          | .error e => .error e
          | .ok (_, s2) => .ok (e, s2)
      | .match_ =>
        match Utils.skip s.next .leftParen with
        | .error e => .error e
        | .ok (_, s1) =>
          match expression fuel s1 .lowest with
          | .error e => .error e
          | .ok (condition, s2) =>
            match Utils.skip s2 .rightParen with
            | .error e => .error e
            | .ok (_, s3) =>
              match Utils.skip s3 .leftBrace with
              | .error e => .error e
              | .ok (_, s4) =>
                match matchLoop fuel s4 none [] with
                | .error e => .error e
                | .ok ((default, arms), s5) =>
                  match Utils.skip s5 .rightBrace with
                  | .error e => .error e
                  | .ok (_, s6) => .ok (.match_ condition arms default, s6)
      | .array =>
        match Utils.skip s.next .leftParen with
        | .error e => .error e
        | .ok (_, s1) =>
          match arrayPairs fuel s1 [] with
          | .error e => .error e
          | .ok (items, s2) =>
            match Utils.skip s2 .rightParen with
            | .error e => .error e
            | .ok (_, s3) => .ok (.array items, s3)
      | .leftBracket => .error (.unmodelled "array_expression", s)
      | .dirConstant => .ok (.magicConst .dir, s.next)
      | .includeKw | .includeOnce | .requireKw | .requireOnce =>
        let kind := IncludeKind.ofToken s.current.kind
        match expression fuel s.next .lowest with
        | .error e => .error e
        | .ok (path, s1) => .ok (.includeExpr kind path, s1)
      | .dollar => dynamicVariable fuel s
      | k =>
        if isPrefixOp k then
          match expression fuel s.next (Precedence.prefixPrec k) with
          | .error e => .error e
          | .ok (rhs, s1) => .ok (applyPrefixOp k rhs, s1)
        else .error (.unexpectedToken k.toStr s.current.span, s)

/-- The infix/postfix phase of `Parser::expression` (lines 909-986): skip
comments, stop before `;`/`Eof`, then dispatch on postfix and infix
operators by precedence and associativity. -/
def exprLoop : Nat → Expression → State → Precedence → PRes Expression
  | 0, _, s, _ => .error (.outOfFuel, s)
  | fuel + 1, left, s0, prec =>
    let s := s0.skipComments
    if s.current.kind == .semiColon || s.current.kind == .eof then .ok (left, s)
    else
      let span := s.current.span
      let kind := s.current.kind
      if isPostfixOp kind then
        match Precedence.postfixPrec kind with
        | none => .error (.unimplementedPrecedence kind.toStr, s)
        | some lpred =>
          if lpred.toNat < prec.toNat then .ok (left, s)
          else
            match postfixOp fuel s left kind with
            | .error e => .error e
            | .ok (l2, s2) => exprLoop fuel l2 s2 prec
      else if isInfixOp kind then
        match Precedence.infixFull kind with
        | none => .error (.unimplementedPrecedence kind.toStr, s)
        | some rpred =>
          if rpred.toNat < prec.toNat then .ok (left, s)
          else if rpred = prec ∧ rpred.associativity = some Associativity.left then
            .ok (left, s)
          else if rpred = prec ∧ rpred.associativity = some Associativity.non then
            .error (.unexpectedToken kind.toStr span, s)
          else
            let s1 := s.next
            if kind == .question then
              match expression fuel s1 .lowest with
              | .error e => .error e
              | .ok (then_, s2) =>
                match Utils.skip s2 .colon with
                | .error e => .error e
                | .ok (_, s3) =>
                  match expression fuel s3 rpred with
                  | .error e => .error e
                  | .ok (otherwise, s4) =>
                    exprLoop fuel (.ternary left (some then_) otherwise) s4 prec
            else if kind == .questionColon then
              match expression fuel s1 .lowest with
              | .error e => .error e
              | .ok (elseE, s2) => exprLoop fuel (.ternary left none elseE) s2 prec
            else
              let byRef := kind == .equals && s1.current.kind == .ampersand
              let s2 := if byRef then s1.next else s1
              match expression fuel s2 rpred with
              | .error e => .error e
              | .ok (rhs, s3) => exprLoop fuel (mkInfixExpr left kind rhs byRef) s3 prec
      else .ok (left, s)

/-- `Parser::postfix` (lines 993-1170): the postfix rules for `??`, calls,
indexing, `::`, `->`/`?->` and `++`/`--`.  The `todo!` catch-all (never
taken: callers guard with `is_postfix`) is `unmodelled`. -/
def postfixOp : Nat → State → Expression → TokenKind → PRes Expression
  | 0, s, _, _ => .error (.outOfFuel, s)
  | fuel + 1, s, lhs, op =>
    match op with
    | .coalesce =>
      match expression fuel s.next .nullCoalesce with
      | .error e => .error e
      | .ok (rhs, s1) => .ok (.coalesce lhs rhs, s1)
    | .leftParen =>
      match argsList fuel s with
      | .error e => .error e
      | .ok (args, s1) => .ok (.call lhs args, s1)
    | .leftBracket =>
      match Utils.skip s .leftBracket with
      | .error e => .error e
      | .ok (_, s1) =>
        if s1.current.kind == .rightBracket then .ok (.arrayIndex lhs none, s1.next)
        else
          match expression fuel s1 .lowest with
          | .error e => .error e
          | .ok (index, s2) =>
            match Utils.skip s2 .rightBracket with
            | .error e => .error e
            | .ok (_, s3) => .ok (.arrayIndex lhs (some index), s3)
    | .doubleColon =>
      match Utils.skip s .doubleColon with
      | .error e => .error e
      | .ok (_, s1) =>
        match s1.current.kind with
        | .dollar =>
          match dynamicVariable fuel s1 with
          | .error e => .error e
          | .ok (property, s2) => staticColonResolve fuel s2 lhs property false
        | .variable_ _ =>
          match Identifiers.var s1 with
          | .error e => .error e
          | .ok (v, s2) => staticColonResolve fuel s2 lhs (.variable_ v) false
        | .identifier _ =>
          match Identifiers.ident s1 with
          | .error e => .error e
          | .ok (idn, s2) => staticColonResolve fuel s2 lhs (.identifier idn) false
        | .leftBrace =>
          match expression fuel s1.next .lowest with
          | .error e => .error e
          | .ok (name, s2) =>
            match Utils.skip s2 .rightBrace with
            | .error e => .error e
            | .ok (_, s3) =>
              staticColonResolve fuel s3 lhs (.dynamicVariable name) true
        | .class_ =>
          let start := s1.current.span
          let s2 := s1.next
          let stop := s2.current.span
          staticColonResolve fuel s2 lhs (.identifier ⟨start, strBytes "class", stop⟩) false
        | k =>
          if isReservedIdent k then
            match Identifiers.identMaybeReserved s1 with
            | .error e => .error e
            | .ok (idn, s2) => staticColonResolve fuel s2 lhs (.identifier idn) false
          else
            .error (.expectedToken ["`\x7b`", "`$`", "an identifier"]
              s1.current.kind.toStr s1.current.span, s1)
    | .arrow | .nullsafeArrow =>
      let s1 := s.next
      match
        (match s1.current.kind with
          | .leftBrace =>
            match Utils.skip s1 .leftBrace with
            | .error e => .error e
            | .ok (_, s2) =>
              match expression fuel s2 .lowest with
              | .error e => .error e
              | .ok (e, s3) =>
                match Utils.skip s3 .rightBrace with
                | .error e => .error e
                | .ok (_, s4) => .ok (e, s4)
          | .variable_ _ =>
            match Identifiers.var s1 with
            | .error e => .error e
            | .ok (v, s2) => .ok (.variable_ v, s2)
          | .dollar => dynamicVariable fuel s1
          | _ =>
            match Identifiers.identMaybeReserved s1 with
            | .error e => .error e
            | .ok (idn, s2) => .ok (.identifier idn, s2) : PRes Expression)
      with
      | .error e => .error e
      | .ok (property, s2) =>
        if s2.current.kind == .leftParen then
          match argsList fuel s2 with
          | .error e => .error e
          | .ok (args, s3) =>
            if op == .nullsafeArrow then
              .ok (.nullsafeMethodCall lhs property args, s3)
            else .ok (.methodCall lhs property args, s3)
        else if op == .nullsafeArrow then .ok (.nullsafePropertyFetch lhs property, s2)
        else .ok (.propertyFetch lhs property, s2)
    | .increment => .ok (.increment lhs, s.next)
    | .decrement => .ok (.decrement lhs, s.next)
    | _ => .error (.unmodelled "postfix", s)

/-- The three-way classification at the end of the `DoubleColon` arm of
`Parser::postfix` (lines 1081-1110): identifier without `(` is a constant
fetch; `(` (or a member form only valid in a method call, the `{expr}`
form) parses arguments into a static method call; anything else is a
static property fetch. -/
def staticColonResolve : Nat → State → Expression → Expression → Bool → PRes Expression
  | 0, s, _, _, _ => .error (.outOfFuel, s)
  | fuel + 1, s, lhs, property, mustBeMethodCall =>
    match property with
    | .identifier idn =>
      if s.current.kind == .leftParen then
        match argsList fuel s with
        | .error e => .error e
        | .ok (args, s1) => .ok (.staticMethodCall lhs (.identifier idn) args, s1)
      else .ok (.constFetch lhs idn, s)
    | p =>
      if s.current.kind == .leftParen || mustBeMethodCall then
        match argsList fuel s with
        | .error e => .error e
        | .ok (args, s1) => .ok (.staticMethodCall lhs p args, s1)
      else .ok (.staticPropertyFetch lhs p, s)

/-- The condition list of one match arm
(`while state.current.kind != TokenKind::DoubleArrow`). -/
def matchConds : Nat → State → List Expression → PRes (List Expression)
  | 0, s, _ => .error (.outOfFuel, s)
  | fuel + 1, s, acc =>
    if s.current.kind == .doubleArrow then .ok (acc, s)
    else
      match expression fuel s .lowest with
      | .error e => .error e
      | .ok (c, s1) =>
        if s1.current.kind == .comma then matchConds fuel s1.next (acc ++ [c])
        else .ok (acc ++ [c], s1)

/-- The arm loop of the `match` branch of `Parser::expression`
(lines 717-767): `default` arms (a second one is the
`MatchExpressionWithMultipleDefaultArms` error at the second `default`'s
span) and conditional arms, each optionally followed by a comma. -/
def matchLoop : Nat → State → Option DefaultMatchArm → List MatchArm →
    PRes (Option DefaultMatchArm × List MatchArm)
  | 0, s, _, _ => .error (.outOfFuel, s)
  | fuel + 1, s0, default, arms =>
    if s0.current.kind == .rightBrace then .ok ((default, arms), s0)
    else
      let s := s0.skipComments
      if s.current.kind == .default_ then
        match default with
        | some _ => .error (.matchExpressionWithMultipleDefaultArms s.current.span, s)
        | none =>
          let s1 := s.next
          let s2 := if s1.current.kind == .comma then s1.next else s1
          match Utils.skip s2 .doubleArrow with
          | .error e => .error e
          | .ok (_, s3) =>
            match expression fuel s3 .lowest with
            | .error e => .error e
            | .ok (body, s4) =>
              let default := some (DefaultMatchArm.mk body)
              if s4.current.kind == .comma then matchLoop fuel s4.next default arms
              else .ok ((default, arms), s4)
      else
        match matchConds fuel s [] with
        | .error e => .error e
        | .ok (conditions, s1) =>
          if conditions.isEmpty then .ok ((default, arms), s1)
          else
            match Utils.skip s1 .doubleArrow with
            | .error e => .error e
            | .ok (_, s2) =>
              match expression fuel s2 .lowest with
              | .error e => .error e
              | .ok (body, s3) =>
                let arms := arms ++ [MatchArm.mk conditions body]
                if s3.current.kind == .comma then matchLoop fuel s3.next default arms
                else .ok ((default, arms), s3)

/-- The item loop of the `array(...)` branch of `Parser::expression`
(lines 784-841): spread and by-reference flags, `key => value` detection (a
by-ref marker before `=>` is `UnexpectedToken("&")` at the `&`'s span),
then the comma/break step. -/
def arrayPairs : Nat → State → List ArrayItem → PRes (List ArrayItem)
  | 0, s, _ => .error (.outOfFuel, s)
  | fuel + 1, s, items =>
    if s.current.kind == .rightParen then .ok (items, s)
    else
      let (unpack, s1) :=
        if s.current.kind == .ellipsis then (true, s.next) else (false, s)
      let (byRef, amperSpan, s2) :=
        if s1.current.kind == .ampersand then (true, s1.current.span, s1.next)
        else (false, ((0, 0) : Span), s1)
      match expression fuel s2 .lowest with
      | .error e => .error e
      | .ok (value, s3) =>
        if s3.current.kind == .doubleArrow then
          let s4 := s3.next
          if byRef then
            .error (.unexpectedToken (TokenKind.ampersand).toStr amperSpan, s4)
          else
            let (byRef2, s5) :=
              if s4.current.kind == .ampersand then (true, s4.next) else (false, s4)
            match expression fuel s5 .lowest with
            | .error e => .error e
            | .ok (value2, s6) =>
              arrayContinue fuel s6 (items ++ [ArrayItem.mk (some value) value2 unpack byRef2])
        else arrayContinue fuel s3 (items ++ [ArrayItem.mk none value unpack byRef])

/-- The comma/break step ending each `array(...)` item: a comma continues
the loop (after a comment skip), anything else leaves the loop. -/
def arrayContinue : Nat → State → List ArrayItem → PRes (List ArrayItem)
  | 0, s, _ => .error (.outOfFuel, s)
  | fuel + 1, s, items =>
    if s.current.kind == .comma then arrayPairs fuel s.next.skipComments items
    else .ok (items, s)

/-- The shared part-by-part reader loop of interpolated strings and
shell-exec (`while current != terminator`), consuming the terminator. -/
def interpLoop : Nat → State → TokenKind → List StringPart → PRes (List StringPart)
  | 0, s, _, _ => .error (.outOfFuel, s)
  | fuel + 1, s, term, parts =>
    if s.current.kind == term then .ok (parts, s.next)
    else
      match interpolatedStringPart fuel s with
      | .error e => .error e
      | .ok (part?, s1) =>
        interpLoop fuel s1 term
          (match part? with
            | some p => parts ++ [p]
            | none => parts)

/-- The heredoc body loop of `Parser::doc_string`
(`while !matches!(current, EndDocString(..))`). -/
def heredocParts : Nat → State → List StringPart → PRes (List StringPart)
  | 0, s, _ => .error (.outOfFuel, s)
  | fuel + 1, s, parts =>
    if isEndDocStringKind s.current.kind then .ok (parts, s)
    else
      match interpolatedStringPart fuel s with
      | .error e => .error e
      | .ok (part?, s1) =>
        heredocParts fuel s1
          (match part? with
            | some p => parts ++ [p]
            | none => parts)

/-- `Parser::doc_string` (lines 1204-1287): heredoc parts with per-part
dedent, or the nowdoc single literal body with per-line dedent. -/
def docString : Nat → State → DocStringKind → PRes Expression
  | 0, s, _ => .error (.outOfFuel, s)
  | fuel + 1, s0, kind =>
    let s := s0.next
    match kind with
    | .heredoc =>
      match heredocParts fuel s [] with
      | .error e => .error e
      | .ok (parts, s1) =>
        match s1.current.kind with
        | .endDocString _ indentationType indentationAmount =>
          let s2 := s1.next
          let parts :=
            match indentationType with
            | some it => parts.map (dedentPart it.toByte indentationAmount)
            | none => parts
          .ok (.heredoc parts, s2)
        | _ => .error (.unmodelled "unreachable end of heredoc", s1)
    | .nowdoc =>
      match s.current.kind with
      | .stringPart sp =>
        let s1 := s.next
        match s1.current.kind with
        | .endDocString _ indentationType indentationAmount =>
          let s2 := s1.next
          let value :=
            match indentationType with
            | some it => nowdocDedent it.toByte indentationAmount sp
            | none => sp
          .ok (.nowdoc value, s2)
        | _ =>
          .error (.expectedToken ["label"] s1.current.kind.toStr s1.current.span, s1)
      | _ =>
        .error (.expectedToken ["constant string"] s.current.kind.toStr
          s.current.span, s)

/-- `Parser::interpolated_string_part` (lines 1289-1428). -/
def interpolatedStringPart : Nat → State → PRes (Option StringPart)
  | 0, s => .error (.outOfFuel, s)
  | fuel + 1, s =>
    match s.current.kind with
    | .stringPart sp =>
      .ok (if sp.length > 0 then some (StringPart.const sp) else none, s.next)
    | .dollarLeftBrace =>
      let s1 := s.next
      match s1.current.kind, s1.peek.kind with
      | .identifier name, .rightBrace =>
        .ok (some (.expr (.variable_ ⟨s1.current.span, name, s1.peek.span⟩)),
          s1.next.next)
      | .identifier name, .leftBracket =>
        let var := Expression.variable_ ⟨s1.current.span, name, s1.peek.span⟩
        match expression fuel s1.next.next .lowest with
        | .error e => .error e
        | .ok (e, s2) =>
          match Utils.skip s2 .rightBracket with
          | .error e => .error e
          | .ok (_, s3) =>
            match Utils.skip s3 .rightBrace with
            | .error e => .error e
            | .ok (_, s4) => .ok (some (.expr (.arrayIndex var (some e))), s4)
      | _, _ =>
        match expression fuel s1 .lowest with
        | .error e => .error e
        | .ok (e, s2) =>
          match Utils.skip s2 .rightBrace with
          | .error e => .error e
          | .ok (_, s3) => .ok (some (.expr (.dynamicVariable e)), s3)
    | .leftBrace =>
      match expression fuel s.next .lowest with
      | .error e => .error e
      | .ok (e, s1) =>
        match Utils.skip s1 .rightBrace with
        | .error e => .error e
        | .ok (_, s2) => .ok (some (.expr e), s2)
    | .variable_ _ =>
      match Identifiers.var s with
      | .error e => .error e
      | .ok (v, s1) =>
        let varE := Expression.variable_ v
        match s1.current.kind with
        | .leftBracket =>
          let s2 := s1.next
          match
            (match s2.current.kind with
              | .literalInteger i => .ok (Expression.literalInteger i, s2.next)
              | .minus =>
                let s3 := s2.next
                match s3.current.kind with
                | .literalInteger i => .ok (.negate (.literalInteger i), s3.next)
                | _ =>
                  .error (.expectedToken ["an integer"] s3.current.kind.toStr
                    s3.current.span, s3)
              | .identifier idb => .ok (Expression.literalString idb, s2.next)
              | .variable_ _ =>
                match Identifiers.var s2 with
                | .error e => .error e
                | .ok (v2, s3) => .ok (Expression.variable_ v2, s3)
              | _ =>
                .error (.expectedToken ["`-`", "an integer", "an identifier",
                  "a variable"] s2.current.kind.toStr s2.current.span, s2)
              : PRes Expression)
          with
          | .error e => .error e
          | .ok (index, s3) =>
            match Utils.skip s3 .rightBracket with
            | .error e => .error e
            | .ok (_, s4) => .ok (some (.expr (.arrayIndex varE (some index))), s4)
        | .arrow =>
          match Identifiers.identMaybeReserved s1.next with
          | .error e => .error e
          | .ok (idn, s2) =>
            .ok (some (.expr (.propertyFetch varE (.identifier idn))), s2)
        | .nullsafeArrow =>
          match Identifiers.identMaybeReserved s1.next with
          | .error e => .error e
          | .ok (idn, s2) =>
            .ok (some (.expr (.nullsafePropertyFetch varE (.identifier idn))), s2)
        | _ => .ok (some (.expr varE), s1)
    | _ =>
      .error (.expectedToken ["`$\x7b`", "`\x7b$`", "`\"`", "a variable"]
        s.current.kind.toStr s.current.span, s)

/-- The expression-statement tail: parse an expression at `Lowest`, then
require `;` (`Parser::statement`'s catch-all arm and the function-ambiguity
early return). -/
def exprStatementTail : Nat → State → PRes Statement
  | 0, s => .error (.outOfFuel, s)
  | fuel + 1, s =>
    match expression fuel s .lowest with
    | .error e => .error e
    | .ok (expr, s1) =>
      match Utils.skip s1 .semiColon with
      | .error e => .error e
      | .ok (_, s2) => .ok (.expressionStmt expr, s2)

/-- The value loop of the `echo` branch. -/
def echoLoop : Nat → State → List Expression → PRes (List Expression)
  | 0, s, _ => .error (.outOfFuel, s)
  | fuel + 1, s, values =>
    match expression fuel s .lowest with
    | .error e => .error e
    | .ok (v, s1) =>
      if s1.current.kind == .comma then echoLoop fuel s1.next (values ++ [v])
      else
        match Utils.skip s1 .semiColon with
        | .error e => .error e
        | .ok (_, s2) => .ok (values ++ [v], s2)

/-- The variable loop of the `global` branch (no extra commas allowed),
including the trailing `;`. -/
def globalVarsLoop : Nat → State → List Variable → PRes (List Variable)
  | 0, s, _ => .error (.outOfFuel, s)
  | fuel + 1, s, vars =>
    match Identifiers.var s with
    | .error e => .error e
    | .ok (v, s1) =>
      if s1.current.kind == .comma then globalVarsLoop fuel s1.next (vars ++ [v])
      else
        match Utils.skip s1 .semiColon with
        | .error e => .error e
        | .ok (_, s2) => .ok (vars ++ [v], s2)

/-- The variable loop of the `static $v` branch (each with an optional
`= default`), including the trailing `;`. -/
def staticVarsLoop : Nat → State → List StaticVar → PRes (List StaticVar)
  | 0, s, _ => .error (.outOfFuel, s)
  | fuel + 1, s, vars =>
    match Identifiers.var s with
    | .error e => .error e
    | .ok (v, s1) =>
      match
        (if s1.current.kind == .equals then
          match expression fuel s1.next .lowest with
          | .error e => .error e
          | .ok (d, s2) => .ok ((some d : Option Expression), s2)
        else .ok ((none : Option Expression), s1) : PRes (Option Expression))
      with
      | .error e => .error e
      | .ok (default, s2) =>
        let vars := vars ++ [StaticVar.mk v default]
        if s2.current.kind == .comma then staticVarsLoop fuel s2.next vars
        else
          match Utils.skip s2 .semiColon with
          | .error e => .error e
          | .ok (_, s3) => .ok (vars, s3)

/-- The constant loop of the top-level `const` branch (without the final
`;`, which `topLevelStatement` skips). -/
def constsLoop : Nat → State → List ConstantDef → PRes (List ConstantDef)
  | 0, s, _ => .error (.outOfFuel, s)
  | fuel + 1, s, constants =>
    match Identifiers.ident s with
    | .error e => .error e
    | .ok (name, s1) =>
      match Utils.skip s1 .equals with
      | .error e => .error e
      | .ok (_, s2) =>
        match expression fuel s2 .lowest with
        | .error e => .error e
        | .ok (value, s3) =>
          let constants := constants ++ [ConstantDef.mk name value]
          if s3.current.kind == .comma then constsLoop fuel s3.next constants
          else .ok (constants, s3)

/-- The `declare(key = literal, …)` item loop (without the surrounding
parentheses). -/
def declaresLoop : Nat → State → List DeclareItem → PRes (List DeclareItem)
  | 0, s, _ => .error (.outOfFuel, s)
  | fuel + 1, s, declares =>
    match Identifiers.ident s with
    | .error e => .error e
    | .ok (key, s1) =>
      match Utils.skip s1 .equals with
      | .error e => .error e
      | .ok (_, s2) =>
        match expectLiteral s2 with
        | .error e => .error e
        | .ok (value, s3) =>
          let declares := declares ++ [DeclareItem.mk key value]
          if s3.current.kind == .comma then declaresLoop fuel s3.next declares
          else .ok (declares, s3)

/-- The `use` item loop of the comma-separated (non-brace) form
(`while !state.is_eof()`), including the final `;` on the break path; no
trailing comma is tolerated (a comma must be followed by another name). -/
def useListLoop : Nat → State → List UseItem → PRes (List UseItem)
  | 0, s, _ => .error (.outOfFuel, s)
  | fuel + 1, s, uses =>
    if s.isEof then .ok (uses, s)
    else
      match Identifiers.fullName s with
      | .error e => .error e
      | .ok (idn, s1) =>
        match
          (if s1.current.kind == .as_ then
            match Identifiers.ident s1.next with
            | .error e => .error e
            | .ok (a, s2) => .ok ((some a : Option Identifier), s2)
          else .ok ((none : Option Identifier), s1) : PRes (Option Identifier))
        with
        | .error e => .error e
        | .ok (alias?, s2) =>
          let uses := uses ++ [UseItem.mk idn alias?]
          if s2.current.kind == .comma then useListLoop fuel s2.next uses
          else
            match Utils.skip s2 .semiColon with
            | .error e => .error e
            | .ok (_, s3) => .ok (uses, s3)

/-- The `use` item loop of the brace-group form
(`while state.current.kind != TokenKind::RightBrace`); a trailing comma is
tolerated (the loop merely re-checks for `}`). -/
def groupUseLoop : Nat → State → List UseItem → PRes (List UseItem)
  | 0, s, _ => .error (.outOfFuel, s)
  | fuel + 1, s, uses =>
    if s.current.kind == .rightBrace then .ok (uses, s)
    else
      match Identifiers.fullName s with
      | .error e => .error e
      | .ok (idn, s1) =>
        match
          (if s1.current.kind == .as_ then
            match Identifiers.ident s1.next with
            | .error e => .error e
            | .ok (a, s2) => .ok ((some a : Option Identifier), s2)
          else .ok ((none : Option Identifier), s1) : PRes (Option Identifier))
        with
        | .error e => .error e
        | .ok (alias?, s2) =>
          let uses := uses ++ [UseItem.mk idn alias?]
          let s3 := if s2.current.kind == .comma then s2.next else s2
          groupUseLoop fuel s3 uses

/-- The body of `Parser::statement` (lines 188-505) up to (but not
including) the epilogue; the `Bool` in the result records the two early
`return` paths of the function-ambiguity lookahead, which bypass the
epilogue.  Statement kinds whose recognizers are not under `src/` surface
as `ParseError.unmodelled`. -/
def statementInner : Nat → State → Bool → PRes (Statement × Bool)
  | 0, s, _ => .error (.outOfFuel, s)
  | fuel + 1, s, hasAttributes =>
    if hasAttributes then
      match s.current.kind with
      | .abstract_ | .readonly_ | .final_ | .class_ =>
        .error (.unmodelled "class_definition", s)
      | .interface => .error (.unmodelled "interface_definition", s)
      | .trait_ => .error (.unmodelled "trait_definition", s)
      | .enum_ => .error (.unmodelled "enum_definition", s)
      | .function =>
        if isIdentifierKind s.peek.kind || s.peek.kind == .null
            || s.peek.kind == .ampersand then
          if s.peek.kind == .ampersand then
            match s.iter with
            | tok :: _ =>
              if !isIdentifierKind tok.kind then
                match exprStatementTail fuel s with
                | .error e => .error e
                | .ok (st, s1) => .ok ((st, true), s1)
              else .error (.unmodelled "function declaration", s)
            | [] => .error (.unmodelled "function declaration", s)
          else .error (.unmodelled "function declaration", s)
        else .error (.expectedItemDefinitionAfterAttributes s.current.span, s)
      | _ => .error (.expectedItemDefinitionAfterAttributes s.current.span, s)
    else
      match s.current.kind with
      | .abstract_ | .readonly_ | .final_ | .class_ =>
        .error (.unmodelled "class_definition", s)
      | .interface => .error (.unmodelled "interface_definition", s)
      | .trait_ => .error (.unmodelled "trait_definition", s)
      | .enum_ => .error (.unmodelled "enum_definition", s)
      | .function =>
        if isIdentifierKind s.peek.kind || s.peek.kind == .null
            || s.peek.kind == .ampersand then
          if s.peek.kind == .ampersand then
            match s.iter with
            | tok :: _ =>
              if !isIdentifierKind tok.kind then
                match exprStatementTail fuel s with
                | .error e => .error e
                | .ok (st, s1) => .ok ((st, true), s1)
              else .error (.unmodelled "function declaration", s)
            | [] => .error (.unmodelled "function declaration", s)
          else .error (.unmodelled "function declaration", s)
        else
          match exprStatementTail fuel s with
          | .error e => .error e
          | .ok (st, s1) => .ok ((st, false), s1)
      | .goto_ =>
        match Identifiers.ident s.next with
        | .error e => .error e
        | .ok (label, s1) =>
          match Utils.skip s1 .semiColon with
          | .error e => .error e
          | .ok (_, s2) => .ok ((.goto_ label, false), s2)
      | .identifier _ =>
        if s.peek.kind == .colon then
          match Identifiers.ident s with
          | .error e => .error e
          | .ok (label, s1) =>
            match Utils.skip s1 .colon with
            | .error e => .error e
            | .ok (_, s2) => .ok ((.label label, false), s2)
        else
          match exprStatementTail fuel s with
          | .error e => .error e
          | .ok (st, s1) => .ok ((st, false), s1)
      | .declare =>
        match Utils.skip s.next .leftParen with
        | .error e => .error e
        | .ok (_, s1) =>
          match declaresLoop fuel s1 [] with
          | .error e => .error e
          | .ok (declares, s2) =>
            match Utils.skip s2 .rightParen with
            | .error e => .error e
            | .ok (_, s3) =>
              if s3.current.kind == .leftBrace then .error (.unmodelled "body", s3)
              else if s3.current.kind == .colon then .error (.unmodelled "body", s3)
              else
                match Utils.skip s3 .semiColon with
                | .error e => .error e
                | .ok (_, s4) => .ok ((.declare declares [], false), s4)
      | .global_ =>
        match globalVarsLoop fuel s.next [] with
        | .error e => .error e
        | .ok (vars, s1) => .ok ((.global_ vars, false), s1)
      | .static_ =>
        if isVariableKind s.peek.kind then
          match staticVarsLoop fuel s.next [] with
          | .error e => .error e
          | .ok (vars, s1) => .ok ((.static_ vars, false), s1)
        else
          match exprStatementTail fuel s with
          | .error e => .error e
          | .ok (st, s1) => .ok ((st, false), s1)
      | .inlineHtml html => .ok ((.inlineHtml html, false), s.next)
      | .singleLineComment c =>
        let start := s.current.span
        let s1 := s.next
        .ok ((.comment ⟨start, s1.current.span, .singleLine, c⟩, false), s1)
      | .multiLineComment c =>
        let start := s.current.span
        let s1 := s.next
        .ok ((.comment ⟨start, s1.current.span, .multiLine, c⟩, false), s1)
      | .hashMarkComment c =>
        let start := s.current.span
        let s1 := s.next
        .ok ((.comment ⟨start, s1.current.span, .hashMark, c⟩, false), s1)
      | .documentComment c =>
        let start := s.current.span
        let s1 := s.next
        .ok ((.comment ⟨start, s1.current.span, .document, c⟩, false), s1)
      | .do_ => .error (.unmodelled "do_loop", s)
      | .while_ => .error (.unmodelled "while_loop", s)
      | .for_ => .error (.unmodelled "for_loop", s)
      | .foreach => .error (.unmodelled "foreach_loop", s)
      | .switch => .error (.unmodelled "switch_statement", s)
      | .continue_ => .error (.unmodelled "continue_statement", s)
      | .break_ => .error (.unmodelled "break_statement", s)
      | .if_ => .error (.unmodelled "if_statement", s)
      | .echo =>
        match echoLoop fuel s.next [] with
        | .error e => .error e
        | .ok (values, s1) => .ok ((.echo values, false), s1)
      | .returnKw =>
        let s1 := s.next
        if s1.current.kind == .semiColon then
          match Utils.skip s1 .semiColon with
          | .error e => .error e
          | .ok (_, s2) => .ok ((.returnStmt none, false), s2)
        else
          let (value?, s2) :=
            match expression fuel s1 .lowest with
            | .ok (v, sv) => ((some v : Option Expression), sv)
            | .error (_, se) => ((none : Option Expression), se)
          match Utils.skip s2 .semiColon with
          | .error e => .error e
          | .ok (_, s3) => .ok ((.returnStmt value?, false), s3)
      | .semiColon => .ok ((.noop, false), s.next)
      | .try_ => .error (.unmodelled "try_block", s)
      | .leftBrace => .error (.unmodelled "block_statement", s)
      | _ =>
        match exprStatementTail fuel s with
        | .error e => .error e
        | .ok (st, s1) => .ok ((st, false), s1)

/-- `Parser::statement` (lines 188-515): attribute gathering, the
dispatching body, then the epilogue (comment skip and `?>` absorption) on
every path except the early returns. -/
def statementFn : Nat → State → PRes Statement
  | 0, s => .error (.outOfFuel, s)
  | fuel + 1, s =>
    match gatherAttributes fuel s with
    | .error e => .error e
    | .ok (hasAttributes, s1) =>
      match statementInner fuel s1 hasAttributes with
      | .error e => .error e
      | .ok ((st, early), s2) =>
        if early then .ok (st, s2) else .ok (st, stmtEpilogue s2)

/-- `Parser::top_level_statement` (lines 67-186): comment skip, the
`namespace`/`use`/`const`/`__halt_compiler` dispatch with fall-through to
`statement`, then comment clearing and `?>` absorption. -/
def topLevelStatement : Nat → State → PRes Statement
  | 0, s => .error (.outOfFuel, s)
  | fuel + 1, s0 =>
    let s := s0.skipComments
    match
      (match s.current.kind with
        | .namespace_ => .error (.unmodelled "namespace", s)
        | .use_ =>
          let s1 := s.next
          let (kind, s2) :=
            if s1.current.kind == .function then (UseKind.function, s1.next)
            else if s1.current.kind == .const_ then (UseKind.const, s1.next)
            else (UseKind.normal, s1)
          if s2.peek.kind == .leftBrace then
            match Identifiers.fullName s2 with
            | .error e => .error e
            | .ok (prefix_, s3) =>
              let s4 := s3.next
              match groupUseLoop fuel s4 [] with
              | .error e => .error e
              | .ok (uses, s5) =>
                match Utils.skip s5 .rightBrace with
                | .error e => .error e
                | .ok (_, s6) =>
                  match Utils.skip s6 .semiColon with
                  | .error e => .error e
                  | .ok (_, s7) => .ok (Statement.groupUse prefix_ kind uses, s7)
          else
            match useListLoop fuel s2 [] with
            | .error e => .error e
            | .ok (uses, s3) => .ok (Statement.use_ uses kind, s3)
        | .const_ =>
          match constsLoop fuel s.next [] with
          | .error e => .error e
          | .ok (constants, s2) =>
            match Utils.skip s2 .semiColon with
            | .error e => .error e
            | .ok (_, s3) => .ok (Statement.constant constants, s3)
        | .haltCompiler =>
          let s1 := s.next
          match s1.current.kind with
          | .inlineHtml content => .ok (Statement.haltCompiler (some content), s1.next)
          | _ => .ok (Statement.haltCompiler none, s1)
        | _ => statementFn fuel s : PRes Statement)
    with
    | .error e => .error e
    | .ok (st, s1) =>
      let s2 := s1.clearComments
      let s3 := if s2.current.kind == .closeTag then s2.next else s2
      .ok (st, s3)

/-- The `while` loop of `Parser::parse` (lines 44-62): skip open/close
tags, gather comments, stop at EOF, parse one top-level statement, clear
comments. -/
def parseLoop : Nat → State → List Statement → PRes (List Statement)
  | 0, s, _ => .error (.outOfFuel, s)
  | fuel + 1, s, acc =>
    if s.current.kind == .eof then .ok (acc, s)
    else if s.current.kind == .openTag || s.current.kind == .closeTag then
      parseLoop fuel s.next acc
    else
      let s1 := s.gatherComments
      if s1.isEof then .ok (acc, s1)
      else
        match topLevelStatement fuel s1 with
        | .error e => .error e
        | .ok (st, s2) => parseLoop fuel s2.clearComments (acc ++ [st])

end

/-- `Parser::parse` (lines 39-65): run the top-level loop over a fresh
state; only the program or the error is returned (the final state is
internal). -/
def parse (fuel : Nat) (tokens : List Token) : Except ParseError Program :=
  match parseLoop fuel (State.new tokens) [] with
  | .ok (prog, _) => .ok prog
  | .error (e, _) => .error e

/-! ## Test harness: concrete token streams

Token `i` of a stream is given span `(1, i)`, so error positions identify
the offending token. -/

/-- Build a token stream from kinds, spans `(1, 0), (1, 1), …`. -/
def mkTokens (ks : List TokenKind) : List Token :=
  (ks.zip (List.range ks.length)).map fun p => ⟨p.1, (1, p.2)⟩

/-- A comfortable recursion budget for the concrete runs. -/
def testFuel : Nat := 64

/-- Run the expression engine at `Lowest` on a concrete stream. -/
def runExprKs (ks : List TokenKind) : PRes Expression :=
  expression testFuel (State.new (mkTokens ks)) .lowest

/-- Run the expression engine with both class-scope flags set (as inside a
class body with a parent). -/
def runExprScoped (ks : List TokenKind) : PRes Expression :=
  expression testFuel
    { State.new (mkTokens ks) with hasClassScope := true, hasClassParentScope := true }
    .lowest

/-- Run the full parser on a concrete stream. -/
def runParseKs (ks : List TokenKind) : Except ParseError Program :=
  parse testFuel (mkTokens ks)

/-- The error of a parse result, when it is one. -/
def errOf {α : Type} : PRes α → Option ParseError
  | .error (e, _) => some e
  | .ok _ => none

/-- The value of a parse result, when it is one. -/
def okOf {α : Type} : PRes α → Option α
  | .ok (a, _) => some a
  | .error _ => none

/-! ## Helper lemmas -/

/-- `skip_comments` is the identity when the current token is not a
comment. -/
theorem State.skipComments_of_not_comment {s : State}
    (h : isCommentKind s.current.kind = false) : s.skipComments = s := by
  show State.skipCommentsAux (s.iter.length + 2) false s = s
  have h2 : s.iter.length + 2 = (s.iter.length + 1) + 1 := rfl
  rw [h2]
  simp [State.skipCommentsAux, h]

/-- When there are no attributes and `exprFirst` fails, `expression` fails
the same way (the wrapper of the prefix phase). -/
theorem expression_error_of_exprFirst {fuel : Nat} {s : State} {prec : Precedence}
    {e : ParseError × State}
    (hne : s.isEof = false)
    (hna : (s.current.kind == TokenKind.attribute) = false)
    (hf : exprFirst (fuel + 1) s false = .error e) :
    expression (fuel + 2) s prec = .error e := by
  simp only [expression, gatherAttributes, hne, hna, hf, Bool.false_eq_true, if_false,
    ite_false]

/-- `statement` without attributes is `statementInner` followed by the
epilogue. -/
theorem statementFn_eq_inner (fuel : Nat) (s : State)
    (hna : (s.current.kind == TokenKind.attribute) = false) :
    statementFn (fuel + 2) s =
      match statementInner (fuel + 1) s false with
      | .error e => .error e
      | .ok ((st, early), s2) =>
        if early then .ok (st, s2) else .ok (st, stmtEpilogue s2) := by
  simp only [statementFn, gatherAttributes, hna, Bool.false_eq_true, if_false, ite_false]

/-! ### Dedent lemmas (for C8) -/

theorem stripIndent_nil (c : Nat) : ∀ n, stripIndent c n [] = []
  | 0 => rfl
  | n + 1 => stripIndent_nil c n

theorem stripIndent_head_ne (c x : Nat) (xs : Bytes) (hx : x ≠ c) :
    ∀ n, stripIndent c n (x :: xs) = x :: xs
  | 0 => rfl
  | n + 1 => by
    show stripIndent c n (stripOnce c (x :: xs)) = x :: xs
    rw [show stripOnce c (x :: xs) = if x = c then xs else x :: xs from rfl, if_neg hx]
    exact stripIndent_head_ne c x xs hx n

/-- The dedent loop strips exactly `min n (number of leading c bytes)`
bytes: "up to N leading occurrences of the character". -/
theorem stripIndent_eq_drop (c : Nat) :
    ∀ (n : Nat) (b : Bytes),
      stripIndent c n b = b.drop (min n ((b.takeWhile (fun x => x == c)).length))
  | 0, b => by simp [stripIndent]
  | n + 1, [] => by simp [stripIndent_nil]
  | n + 1, x :: xs => by
    by_cases hx : x = c
    · subst hx
      show stripIndent x n (stripOnce x (x :: xs)) = _
      rw [show stripOnce x (x :: xs) = if x = x then xs else x :: xs from rfl,
        if_pos rfl, stripIndent_eq_drop x n xs]
      simp [List.takeWhile_cons, Nat.succ_min_succ]
    · rw [stripIndent_head_ne c x xs hx]
      simp [List.takeWhile_cons, hx]

theorem splitOnNewline_ne_nil (b : Bytes) : splitOnNewline b ≠ [] := by
  induction b with
  | nil => simp [splitOnNewline]
  | cons x xs ih =>
    rw [splitOnNewline]
    by_cases hx : x = 10
    · simp [hx]
    · rw [if_neg hx]
      cases hsp : splitOnNewline xs with
      | nil => simp
      | cons l ls => simp

theorem mem_splitOnNewline_no_nl (b : Bytes) :
    ∀ l ∈ splitOnNewline b, (10 : Nat) ∉ l := by
  induction b with
  | nil =>
    intro l hl
    simp [splitOnNewline] at hl
    subst hl; simp
  | cons x xs ih =>
    intro l hl
    rw [splitOnNewline] at hl
    by_cases hx : x = 10
    · rw [if_pos hx] at hl
      rcases List.mem_cons.mp hl with h | h
      · subst h; simp
      · exact ih l h
    · rw [if_neg hx] at hl
      cases hsp : splitOnNewline xs with
      | nil => exact absurd hsp (splitOnNewline_ne_nil xs)
      | cons l0 ls =>
        rw [hsp] at hl
        rcases List.mem_cons.mp hl with h | h
        · subst h
          intro hmem
          rcases List.mem_cons.mp hmem with h10 | h10
          · exact hx h10.symm
          · exact ih l0 (hsp ▸ List.mem_cons_self l0 ls) h10
        · exact ih l (hsp ▸ List.mem_cons_of_mem l0 h)

theorem splitOnNewline_append (t : Bytes) :
    ∀ (l : Bytes), (10 : Nat) ∉ l →
      splitOnNewline (l ++ 10 :: t) = l :: splitOnNewline t := by
  intro l
  induction l with
  | nil => intro _; simp [splitOnNewline]
  | cons x xs ih =>
    intro hl
    have hx : x ≠ 10 := fun h => hl (h ▸ List.mem_cons_self x xs)
    have hxs : (10 : Nat) ∉ xs := fun h => hl (List.mem_cons_of_mem x h)
    rw [List.cons_append, splitOnNewline, if_neg hx, ih hxs]

theorem splitOnNewline_no_nl_eq :
    ∀ (l : Bytes), (10 : Nat) ∉ l → splitOnNewline l = [l] := by
  intro l
  induction l with
  | nil => intro _; rfl
  | cons x xs ih =>
    intro hl
    have hx : x ≠ 10 := fun h => hl (h ▸ List.mem_cons_self x xs)
    have hxs : (10 : Nat) ∉ xs := fun h => hl (List.mem_cons_of_mem x h)
    rw [splitOnNewline, if_neg hx, ih hxs]

theorem splitOnNewline_joinLines :
    ∀ (ls : List Bytes), ls ≠ [] → (∀ l ∈ ls, (10 : Nat) ∉ l) →
      splitOnNewline (joinLines ls) = ls := by
  intro ls
  induction ls with
  | nil => intro hne _; cases hne rfl
  | cons l rest ih =>
    intro _ h
    cases rest with
    | nil => exact splitOnNewline_no_nl_eq l (h l (List.mem_cons_self _ _))
    | cons l2 rest2 =>
      rw [show joinLines (l :: l2 :: rest2) = l ++ 10 :: joinLines (l2 :: rest2) from rfl,
        splitOnNewline_append _ l (h l (List.mem_cons_self _ _)),
        ih (by simp) (fun x hx => h x (List.mem_cons_of_mem _ hx))]

/-! ### The four dispatch rules of the infix/postfix phase (for C1) -/

/-- A postfix operator whose precedence is at least `min_precedence` is
applied, and the loop continues. -/
theorem exprLoop_postfix_applied (fuel : Nat) (left : Expression) (s : State)
    (prec lpred : Precedence)
    (hc : isCommentKind s.current.kind = false)
    (hs : (s.current.kind == TokenKind.semiColon) = false)
    (he : (s.current.kind == TokenKind.eof) = false)
    (hp : isPostfixOp s.current.kind = true)
    (hl : Precedence.postfixPrec s.current.kind = some lpred)
    (hge : prec.toNat ≤ lpred.toNat) :
    exprLoop (fuel + 1) left s prec =
      match postfixOp fuel s left s.current.kind with
      | .error e => .error e
      | .ok (l2, s2) => exprLoop fuel l2 s2 prec := by
  have hsc : s.skipComments = s := State.skipComments_of_not_comment hc
  have hnl : ¬ lpred.toNat < prec.toNat := Nat.not_lt.mpr hge
  simp only [exprLoop, hsc, hs, he, hp, hl, Bool.false_or, Bool.or_self, if_neg hnl,
    if_pos, Bool.false_eq_true, if_false, ite_false]

/-- An infix operator with precedence above `min_precedence`, or equal with
right associativity, is consumed; the right-hand side is parsed with the
operator's precedence as the new minimum. -/
theorem exprLoop_infix_consumed (fuel : Nat) (left : Expression) (s : State)
    (prec rpred : Precedence)
    (hc : isCommentKind s.current.kind = false)
    (hs : (s.current.kind == TokenKind.semiColon) = false)
    (he : (s.current.kind == TokenKind.eof) = false)
    (hp : isPostfixOp s.current.kind = false)
    (hi : isInfixOp s.current.kind = true)
    (hr : Precedence.infixFull s.current.kind = some rpred)
    (hgt : prec.toNat < rpred.toNat ∨ (rpred = prec ∧ rpred.associativity = some .right))
    (hq : (s.current.kind == TokenKind.question) = false)
    (hqc : (s.current.kind == TokenKind.questionColon) = false)
    (heq : (s.current.kind == TokenKind.equals) = false) :
    exprLoop (fuel + 1) left s prec =
      match expression fuel s.next rpred with
      | .error e => .error e
      | .ok (rhs, s3) => exprLoop fuel (mkInfixExpr left s.current.kind rhs false) s3 prec := by
  have hsc : s.skipComments = s := State.skipComments_of_not_comment hc
  have hnl : ¬ rpred.toNat < prec.toNat := by
    rcases hgt with h1 | ⟨h2, _⟩
    · omega
    · rw [h2]; exact Nat.lt_irrefl _
  have hne1 : ¬ (rpred = prec ∧ rpred.associativity = some Associativity.left) := by
    rcases hgt with h1 | ⟨h2, hra⟩
    · rintro ⟨h, _⟩; rw [h] at h1; exact Nat.lt_irrefl _ h1
    · rintro ⟨_, hl⟩; rw [hra] at hl; cases hl
  have hne2 : ¬ (rpred = prec ∧ rpred.associativity = some Associativity.non) := by
    rcases hgt with h1 | ⟨h2, hra⟩
    · rintro ⟨h, _⟩; rw [h] at h1; exact Nat.lt_irrefl _ h1
    · rintro ⟨_, hl⟩; rw [hra] at hl; cases hl
  simp only [exprLoop, hsc, hs, he, hp, hi, hr, if_neg hnl, if_neg hne1, if_neg hne2,
    hq, hqc, heq, Bool.false_or, Bool.or_self, Bool.false_eq_true, if_false,
    Bool.false_and, ite_false, if_true]

/-- A left-associative infix operator at exactly `min_precedence` breaks
the loop: the left result is returned as-is. -/
theorem exprLoop_left_assoc_breaks (fuel : Nat) (left : Expression) (s : State)
    (prec : Precedence)
    (hc : isCommentKind s.current.kind = false)
    (hs : (s.current.kind == TokenKind.semiColon) = false)
    (he : (s.current.kind == TokenKind.eof) = false)
    (hp : isPostfixOp s.current.kind = false)
    (hi : isInfixOp s.current.kind = true)
    (hr : Precedence.infixFull s.current.kind = some prec)
    (ha : prec.associativity = some Associativity.left) :
    exprLoop (fuel + 1) left s prec = .ok (left, s) := by
  have hsc : s.skipComments = s := State.skipComments_of_not_comment hc
  simp only [exprLoop, hsc, hs, he, hp, hi, hr, ha, Bool.false_or, Bool.or_self,
    Bool.false_eq_true, if_false, ite_false]
  simp

/-- A non-associative infix operator at exactly `min_precedence` raises
`UnexpectedToken` at the operator's span. -/
theorem exprLoop_non_assoc_errors (fuel : Nat) (left : Expression) (s : State)
    (prec : Precedence)
    (hc : isCommentKind s.current.kind = false)
    (hs : (s.current.kind == TokenKind.semiColon) = false)
    (he : (s.current.kind == TokenKind.eof) = false)
    (hp : isPostfixOp s.current.kind = false)
    (hi : isInfixOp s.current.kind = true)
    (hr : Precedence.infixFull s.current.kind = some prec)
    (ha : prec.associativity = some Associativity.non) :
    exprLoop (fuel + 1) left s prec =
      .error (.unexpectedToken s.current.kind.toStr s.current.span, s) := by
  have hsc : s.skipComments = s := State.skipComments_of_not_comment hc
  simp only [exprLoop, hsc, hs, he, hp, hi, hr, ha, Bool.false_or, Bool.or_self,
    Bool.false_eq_true, if_false, ite_false]
  simp

/-! ### Claim theorems -/

/-- C1: In the infix/postfix phase of `expression(min_precedence)`: a
postfix operator is applied whenever its precedence is ≥ `min_precedence`;
an infix operator is consumed (recursing with the operator's precedence as
the new minimum) whenever its precedence is > `min_precedence`, or equal
with right associativity; at equal precedence a left-associative operator
breaks the loop leaving the left result as-is, and a non-associative
operator raises an error — in particular, parsing `1 == 2 == 3` fails with
`UnexpectedToken("==", …)` at the second `==`.  (The last two conjuncts
also exhibit the rules concretely: `??`, handled as a postfix rule, ends up
right-associated, and so does the right-associative `=`.) -/
theorem c1_infix_postfix_phase :
    (∀ (fuel : Nat) (left : Expression) (s : State) (prec lpred : Precedence),
      isCommentKind s.current.kind = false →
      (s.current.kind == TokenKind.semiColon) = false →
      (s.current.kind == TokenKind.eof) = false →
      isPostfixOp s.current.kind = true →
      Precedence.postfixPrec s.current.kind = some lpred →
      prec.toNat ≤ lpred.toNat →
      exprLoop (fuel + 1) left s prec =
        match postfixOp fuel s left s.current.kind with
        | .error e => .error e
        | .ok (l2, s2) => exprLoop fuel l2 s2 prec) ∧
    (∀ (fuel : Nat) (left : Expression) (s : State) (prec rpred : Precedence),
      isCommentKind s.current.kind = false →
      (s.current.kind == TokenKind.semiColon) = false →
      (s.current.kind == TokenKind.eof) = false →
      isPostfixOp s.current.kind = false →
      isInfixOp s.current.kind = true →
      Precedence.infixFull s.current.kind = some rpred →
      (prec.toNat < rpred.toNat ∨ (rpred = prec ∧ rpred.associativity = some .right)) →
      (s.current.kind == TokenKind.question) = false →
      (s.current.kind == TokenKind.questionColon) = false →
      (s.current.kind == TokenKind.equals) = false →
      exprLoop (fuel + 1) left s prec =
        match expression fuel s.next rpred with
        | .error e => .error e
        | .ok (rhs, s3) =>
          exprLoop fuel (mkInfixExpr left s.current.kind rhs false) s3 prec) ∧
    (∀ (fuel : Nat) (left : Expression) (s : State) (prec : Precedence),
      isCommentKind s.current.kind = false →
      (s.current.kind == TokenKind.semiColon) = false →
      (s.current.kind == TokenKind.eof) = false →
      isPostfixOp s.current.kind = false →
      isInfixOp s.current.kind = true →
      Precedence.infixFull s.current.kind = some prec →
      prec.associativity = some Associativity.left →
      exprLoop (fuel + 1) left s prec = .ok (left, s)) ∧
    (∀ (fuel : Nat) (left : Expression) (s : State) (prec : Precedence),
      isCommentKind s.current.kind = false →
      (s.current.kind == TokenKind.semiColon) = false →
      (s.current.kind == TokenKind.eof) = false →
      isPostfixOp s.current.kind = false →
      isInfixOp s.current.kind = true →
      Precedence.infixFull s.current.kind = some prec →
      prec.associativity = some Associativity.non →
      exprLoop (fuel + 1) left s prec =
        .error (.unexpectedToken s.current.kind.toStr s.current.span, s)) ∧
    errOf (runExprKs [.literalInteger [49], .doubleEquals, .literalInteger [50],
      .doubleEquals, .literalInteger [51], .semiColon, .eof]) =
      some (.unexpectedToken "==" (1, 3)) ∧
    okOf (runExprKs [.variable_ (strBytes "a"), .coalesce, .variable_ (strBytes "b"),
      .coalesce, .variable_ (strBytes "c"), .semiColon, .eof]) =
      some (.coalesce (.variable_ ⟨(1, 0), strBytes "a", (1, 1)⟩)
        (.coalesce (.variable_ ⟨(1, 2), strBytes "b", (1, 3)⟩)
          (.variable_ ⟨(1, 4), strBytes "c", (1, 5)⟩))) ∧
    okOf (runExprKs [.variable_ (strBytes "a"), .equals, .variable_ (strBytes "b"),
      .equals, .variable_ (strBytes "c"), .semiColon, .eof]) =
      some (.infixExpr (.variable_ ⟨(1, 0), strBytes "a", (1, 1)⟩) (.op .equals)
        (.infixExpr (.variable_ ⟨(1, 2), strBytes "b", (1, 3)⟩) (.op .equals)
          (.variable_ ⟨(1, 4), strBytes "c", (1, 5)⟩))) :=
  ⟨exprLoop_postfix_applied, exprLoop_infix_consumed, exprLoop_left_assoc_breaks,
    exprLoop_non_assoc_errors, rfl, rfl, rfl⟩

/-- C1 witness: each quantified rule of `c1_infix_postfix_phase`
instantiated at a concrete state (`++` postfix at `Lowest`; `+` infix above
`Lowest`; `+` at its own left-associative level; `==` at its own
non-associative level). -/
theorem c1_infix_postfix_phase_witness :
    (exprLoop 6 .null (State.new (mkTokens [.increment, .semiColon, .eof])) .lowest =
      match postfixOp 5 (State.new (mkTokens [.increment, .semiColon, .eof])) .null
          (State.new (mkTokens [.increment, .semiColon, .eof])).current.kind with
      | .error e => .error e
      | .ok (l2, s2) => exprLoop 5 l2 s2 .lowest) ∧
    (exprLoop 6 .null
        (State.new (mkTokens [.plus, .literalInteger [49], .semiColon, .eof])) .lowest =
      match expression 5
          (State.new (mkTokens [.plus, .literalInteger [49], .semiColon, .eof])).next
          .addSub with
      | .error e => .error e
      | .ok (rhs, s3) =>
        exprLoop 5
          (mkInfixExpr .null
            (State.new (mkTokens [.plus, .literalInteger [49], .semiColon,
              .eof])).current.kind rhs false)
          s3 .lowest) ∧
    (exprLoop 6 .null (State.new (mkTokens [.plus, .semiColon, .eof])) .addSub =
      .ok (.null, State.new (mkTokens [.plus, .semiColon, .eof]))) ∧
    (exprLoop 6 .null (State.new (mkTokens [.doubleEquals, .semiColon, .eof])) .equality =
      .error (.unexpectedToken "==" (1, 0),
        State.new (mkTokens [.doubleEquals, .semiColon, .eof]))) :=
  ⟨c1_infix_postfix_phase.1 5 .null _ .lowest .incDec rfl rfl rfl rfl rfl (by decide),
    c1_infix_postfix_phase.2.1 5 .null _ .lowest .addSub rfl rfl rfl rfl rfl rfl
      (Or.inl (by decide)) rfl rfl rfl,
    c1_infix_postfix_phase.2.2.1 5 .null _ .addSub rfl rfl rfl rfl rfl rfl rfl,
    c1_infix_postfix_phase.2.2.2.1 5 .null _ .equality rfl rfl rfl rfl rfl rfl rfl⟩

/-- C4 counterexample: `%=` belongs to the assignment-operator family and
`is_infix` classifies it as infix, yet `Precedence::infix` in
`src/trunk_parser/src/parser/precedence.rs` does not return the
`Assignment` class for it — it has no arm for `%=` at all (the
`unimplemented!` panic, `none` here). -/
theorem c4_counterexample :
    Precedence.infixTrunk TokenKind.percentEquals = none ∧
    isInfixOp TokenKind.percentEquals = true :=
  ⟨rfl, rfl⟩

/-- C4 (amended): In `trunk_parser`'s `Precedence::infix`, only the nine
assignment operators `=`, `+=`, `-=`, `*=`, `**=`, `/=`, `.=`, `&=`, `??=`
map to the `Assignment` class; `%=`, `|=`, `^=`, `<<=`, `>>=` are
unhandled (the `unimplemented!` panic) even though `is_infix` classifies
them as infix — so that copy of `infix` also fails on some infix tokens.
The active engine's lookup (spec-modelled as `Precedence.infixFull`, its
source is not under `src/`) maps all fourteen assignment operators to
`Assignment` and fails exactly on the tokens `is_infix` rejects. -/
theorem c4_assignment_family_amended :
    (Precedence.infixTrunk .equals = some .assignment ∧
      Precedence.infixTrunk .plusEquals = some .assignment ∧
      Precedence.infixTrunk .minusEquals = some .assignment ∧
      Precedence.infixTrunk .asteriskEqual = some .assignment ∧
      Precedence.infixTrunk .powEquals = some .assignment ∧
      Precedence.infixTrunk .slashEquals = some .assignment ∧
      Precedence.infixTrunk .dotEquals = some .assignment ∧
      Precedence.infixTrunk .ampersandEquals = some .assignment ∧
      Precedence.infixTrunk .coalesceEqual = some .assignment) ∧
    (Precedence.infixTrunk .percentEquals = none ∧ isInfixOp .percentEquals = true) ∧
    (Precedence.infixTrunk .pipeEquals = none ∧ isInfixOp .pipeEquals = true) ∧
    (Precedence.infixTrunk .caretEquals = none ∧ isInfixOp .caretEquals = true) ∧
    (Precedence.infixTrunk .leftShiftEquals = none ∧
      isInfixOp .leftShiftEquals = true) ∧
    (Precedence.infixTrunk .rightShiftEquals = none ∧
      isInfixOp .rightShiftEquals = true) ∧
    (Precedence.infixFull .equals = some .assignment ∧
      Precedence.infixFull .plusEquals = some .assignment ∧
      Precedence.infixFull .minusEquals = some .assignment ∧
      Precedence.infixFull .asteriskEqual = some .assignment ∧
      Precedence.infixFull .slashEquals = some .assignment ∧
      Precedence.infixFull .dotEquals = some .assignment ∧
      Precedence.infixFull .percentEquals = some .assignment ∧
      Precedence.infixFull .powEquals = some .assignment ∧
      Precedence.infixFull .ampersandEquals = some .assignment ∧
      Precedence.infixFull .pipeEquals = some .assignment ∧
      Precedence.infixFull .caretEquals = some .assignment ∧
      Precedence.infixFull .leftShiftEquals = some .assignment ∧
      Precedence.infixFull .rightShiftEquals = some .assignment ∧
      Precedence.infixFull .coalesceEqual = some .assignment) ∧
    (∀ k : TokenKind, (Precedence.infixFull k).isSome = isInfixOp k) :=
  ⟨⟨rfl, rfl, rfl, rfl, rfl, rfl, rfl, rfl, rfl⟩,
    ⟨rfl, rfl⟩, ⟨rfl, rfl⟩, ⟨rfl, rfl⟩, ⟨rfl, rfl⟩, ⟨rfl, rfl⟩,
    ⟨rfl, rfl, rfl, rfl, rfl, rfl, rfl, rfl, rfl, rfl, rfl, rfl, rfl, rfl⟩,
    fun k => by cases k <;> rfl⟩

/-- C5: a `Match` node stores its default arm as an `Option` (at most one
by construction); during parsing, a second `default` arm raises
`MatchExpressionWithMultipleDefaultArms` at the span of the second
`default` token.  The first conjunct is the arm-loop rule: whenever a
`default` arm is already recorded and the current token is again
`default`, the loop errors at that token's span.  The concrete conjuncts
run `match ($x) { default => 1, default => 2 }` (error at the second
`default`, token index 9) and `match ($x) { 1, 2 => 7, default => 8, }`
(one default arm, trailing commas tolerated). -/
theorem c5_match_single_default :
    (∀ (fuel : Nat) (s : State) (d : DefaultMatchArm) (arms : List MatchArm),
      s.current.kind = TokenKind.default_ →
      matchLoop (fuel + 1) s (some d) arms =
        .error (.matchExpressionWithMultipleDefaultArms s.current.span, s)) ∧
    errOf (runExprKs [.match_, .leftParen, .variable_ (strBytes "x"), .rightParen,
      .leftBrace, .default_, .doubleArrow, .literalInteger [49], .comma, .default_,
      .doubleArrow, .literalInteger [50], .rightBrace, .semiColon, .eof]) =
      some (.matchExpressionWithMultipleDefaultArms (1, 9)) ∧
    okOf (runExprKs [.match_, .leftParen, .variable_ (strBytes "x"), .rightParen,
      .leftBrace, .literalInteger [49], .comma, .literalInteger [50], .doubleArrow,
      .literalInteger [55], .comma, .default_, .doubleArrow, .literalInteger [56],
      .comma, .rightBrace, .semiColon, .eof]) =
      some (.match_ (.variable_ ⟨(1, 2), strBytes "x", (1, 3)⟩)
        [MatchArm.mk [.literalInteger [49], .literalInteger [50]] (.literalInteger [55])]
        (some (DefaultMatchArm.mk (.literalInteger [56])))) := by
  refine ⟨?_, rfl, rfl⟩
  intro fuel s d arms h
  have hc : isCommentKind s.current.kind = false := by rw [h]; rfl
  have hsc : s.skipComments = s := State.skipComments_of_not_comment hc
  simp only [matchLoop, h, hsc]
  rfl

/-- C5 witness: the arm-loop rule at a concrete state whose current token
is a second `default`. -/
theorem c5_match_single_default_witness :
    matchLoop 6 (State.new (mkTokens [.default_, .doubleArrow, .literalInteger [49],
      .rightBrace, .eof])) (some (DefaultMatchArm.mk .null)) [] =
      .error (.matchExpressionWithMultipleDefaultArms (1, 0),
        State.new (mkTokens [.default_, .doubleArrow, .literalInteger [49],
          .rightBrace, .eof])) :=
  c5_match_single_default.1 5 _ (DefaultMatchArm.mk .null) [] rfl

/-- C6: at an expression root, `self` and `static` parse only when
`has_class_scope` is set and `parent` only when `has_class_parent_scope`
is set — otherwise `CannotFindTypeInCurrentScope` is returned with the
offending token's span; on success the root is immediately combined with a
following `::` postfix (a missing `::` is an `ExpectedToken` error, and
with `::` the root becomes e.g. a constant fetch). -/
theorem c6_scope_roots :
    (∀ (fuel : Nat) (s : State) (prec : Precedence),
      s.current.kind = TokenKind.self_ →
      s.hasClassScope = false →
      expression (fuel + 2) s prec =
        .error (.cannotFindTypeInCurrentScope "self" s.current.span, s)) ∧
    (∀ (fuel : Nat) (s : State) (prec : Precedence),
      s.current.kind = TokenKind.static_ →
      (s.peek.kind == TokenKind.function) = false →
      (s.peek.kind == TokenKind.fn_) = false →
      s.hasClassScope = false →
      expression (fuel + 2) s prec =
        .error (.cannotFindTypeInCurrentScope "static" s.current.span, s)) ∧
    (∀ (fuel : Nat) (s : State) (prec : Precedence),
      s.current.kind = TokenKind.parent_ →
      s.hasClassParentScope = false →
      expression (fuel + 2) s prec =
        .error (.cannotFindTypeInCurrentScope "parent" s.current.span, s)) ∧
    okOf (runExprScoped [.self_, .doubleColon, .identifier (strBytes "FOO"),
      .semiColon, .eof]) =
      some (.constFetch .self_ ⟨(1, 2), strBytes "FOO", (1, 3)⟩) ∧
    okOf (runExprScoped [.static_, .doubleColon, .identifier (strBytes "FOO"),
      .semiColon, .eof]) =
      some (.constFetch .static_ ⟨(1, 2), strBytes "FOO", (1, 3)⟩) ∧
    okOf (runExprScoped [.parent_, .doubleColon, .identifier (strBytes "FOO"),
      .semiColon, .eof]) =
      some (.constFetch .parent_ ⟨(1, 2), strBytes "FOO", (1, 3)⟩) ∧
    errOf (runExprScoped [.self_, .semiColon, .eof]) =
      some (.expectedToken ["::"] ";" (1, 1)) := by
  refine ⟨?_, ?_, ?_, rfl, rfl, rfl, rfl⟩
  · intro fuel s prec h hcs
    obtain ⟨⟨ck, csp⟩, pk, it, cms, f1, f2⟩ := s
    have h2 : ck = TokenKind.self_ := h
    have h3 : f1 = false := hcs
    subst h2; subst h3
    rfl
  · intro fuel s prec h hf hfn hcs
    obtain ⟨⟨ck, csp⟩, pk, it, cms, f1, f2⟩ := s
    have h2 : ck = TokenKind.static_ := h
    have h3 : f1 = false := hcs
    subst h2; subst h3
    have hfirst : exprFirst (fuel + 1)
        ⟨⟨TokenKind.static_, csp⟩, pk, it, cms, false, f2⟩ false =
        (if (pk.kind == TokenKind.function) = true then
          Except.error (ParseError.unmodelled "anonymous_function",
            (⟨⟨TokenKind.static_, csp⟩, pk, it, cms, false, f2⟩ : State))
        else if (pk.kind == TokenKind.fn_) = true then
          Except.error (ParseError.unmodelled "arrow_function",
            (⟨⟨TokenKind.static_, csp⟩, pk, it, cms, false, f2⟩ : State))
        else
          Except.error (ParseError.cannotFindTypeInCurrentScope "static" csp,
            (⟨⟨TokenKind.static_, csp⟩, pk, it, cms, false, f2⟩ : State))) := rfl
    rw [hf, hfn] at hfirst
    simp only [Bool.false_eq_true, if_false, ite_false] at hfirst
    exact expression_error_of_exprFirst rfl rfl hfirst
  · intro fuel s prec h hps
    obtain ⟨⟨ck, csp⟩, pk, it, cms, f1, f2⟩ := s
    have h2 : ck = TokenKind.parent_ := h
    have h3 : f2 = false := hps
    subst h2; subst h3
    rfl

/-- C6 witness: the three scope-check rules at concrete states whose flags
are cleared (`State.new` starts with both flags `false`). -/
theorem c6_scope_roots_witness :
    (expression 7 (State.new (mkTokens [.self_, .semiColon, .eof])) .lowest =
      .error (.cannotFindTypeInCurrentScope "self" (1, 0),
        State.new (mkTokens [.self_, .semiColon, .eof]))) ∧
    (expression 7 (State.new (mkTokens [.static_, .semiColon, .eof])) .lowest =
      .error (.cannotFindTypeInCurrentScope "static" (1, 0),
        State.new (mkTokens [.static_, .semiColon, .eof]))) ∧
    (expression 7 (State.new (mkTokens [.parent_, .semiColon, .eof])) .lowest =
      .error (.cannotFindTypeInCurrentScope "parent" (1, 0),
        State.new (mkTokens [.parent_, .semiColon, .eof]))) :=
  ⟨c6_scope_roots.1 5 _ .lowest rfl rfl,
    c6_scope_roots.2.1 5 _ .lowest rfl rfl rfl rfl,
    c6_scope_roots.2.2.1 5 _ .lowest rfl rfl⟩

/-- C2 counterexample: on the stream of `<?php return + ;` the sub-parse of
the return value errors (`UnexpectedToken(";")` — the state reached when
`statement` invokes `expression` on the value is the one after `return`),
yet the top-level `parse` returns a program tree `[Return { value: None }]`
and no error: `Parser::statement` discards the sub-parse's error through
`.ok()`. -/
theorem c2_counterexample :
    runParseKs [.openTag, .returnKw, .plus, .semiColon, .eof] =
      .ok [Statement.returnStmt none] ∧
    errOf (expression 60
        ((State.new (mkTokens [.openTag, .returnKw, .plus, .semiColon,
          .eof])).next.next) .lowest) =
      some (.unexpectedToken ";" (1, 3)) :=
  ⟨rfl, rfl⟩

/-- C2 (amended): errors from sub-parses abort the enclosing parse and
bubble to the top-level `parse` call — except the value expression of a
`return` statement: there a parse error is discarded (`.ok()`), the value
becomes `None`, and parsing resumes from the state the failed sub-parse
reached, so `parse` succeeds whenever a `;` follows.  The first conjunct
is the general rule; the second shows an error outside that position
bubbling to `parse`. -/
theorem c2_return_swallows_error :
    (∀ (fuel : Nat) (s : State) (e : ParseError) (sE : State),
      s.current.kind = TokenKind.returnKw →
      ((s.next).current.kind == TokenKind.semiColon) = false →
      expression fuel s.next .lowest = .error (e, sE) →
      statementFn (fuel + 2) s =
        match Utils.skip sE .semiColon with
        | .error e2 => .error e2
        | .ok (_, s3) => .ok (Statement.returnStmt none, stmtEpilogue s3)) ∧
    runParseKs [.openTag, .literalInteger [49], .doubleEquals, .literalInteger [50],
      .doubleEquals, .literalInteger [51], .semiColon, .eof] =
      .error (.unexpectedToken "==" (1, 4)) := by
  refine ⟨?_, rfl⟩
  intro fuel s e sE h hs hexp
  obtain ⟨⟨ck, csp⟩, pk, it, cms, f1, f2⟩ := s
  have h2 : ck = TokenKind.returnKw := h
  subst h2
  have hs2 : (pk.kind == TokenKind.semiColon) = false := hs
  have hexp2 : expression fuel
      (⟨⟨TokenKind.returnKw, csp⟩, pk, it, cms, f1, f2⟩ : State).next .lowest =
      .error (e, sE) := hexp
  have hinner : statementInner (fuel + 1)
      ⟨⟨TokenKind.returnKw, csp⟩, pk, it, cms, f1, f2⟩ false =
      (if (pk.kind == TokenKind.semiColon) = true then
        match Utils.skip (⟨⟨TokenKind.returnKw, csp⟩, pk, it, cms, f1, f2⟩ : State).next
            TokenKind.semiColon with
        | .error e2 => .error e2
        | .ok (_, s2) => .ok ((Statement.returnStmt none, false), s2)
      else
        match
          (match expression fuel
              (⟨⟨TokenKind.returnKw, csp⟩, pk, it, cms, f1, f2⟩ : State).next
              Precedence.lowest with
            | .ok (v, sv) => ((some v : Option Expression), sv)
            | .error (_, se) => ((none : Option Expression), se))
        with
        | (value?, s2) =>
          match Utils.skip s2 TokenKind.semiColon with
          | .error e2 => .error e2
          | .ok (_, s3) => .ok ((Statement.returnStmt value?, false), s3)) := rfl
  rw [hs2, hexp2] at hinner
  simp only [Bool.false_eq_true, if_false, ite_false] at hinner
  rw [statementFn_eq_inner fuel ⟨⟨TokenKind.returnKw, csp⟩, pk, it, cms, f1, f2⟩ rfl,
    hinner]
  cases hskip : Utils.skip sE TokenKind.semiColon with
  | error e2 => rfl
  | ok p => rfl

/-- C2 witness: the swallow rule instantiated at the stream of
`<?php return + ;` — the sub-parse error at the `;` is discarded and the
statement parses to `Return { value: None }`. -/
theorem c2_return_swallows_error_witness :
    statementFn 62 ((State.new (mkTokens [.openTag, .returnKw, .plus, .semiColon,
      .eof])).next) =
      match Utils.skip ⟨⟨.semiColon, (1, 3)⟩, ⟨.eof, (1, 4)⟩, [], [], false, false⟩
          .semiColon with
      | .error e2 => .error e2
      | .ok (_, s3) => .ok (Statement.returnStmt none, stmtEpilogue s3) :=
  c2_return_swallows_error.1 60 _ (.unexpectedToken ";" (1, 3))
    ⟨⟨.semiColon, (1, 3)⟩, ⟨.eof, (1, 4)⟩, [], [], false, false⟩ rfl rfl rfl

/-- C3: after the `::` postfix operator the parser parses a member name;
an identifier member not followed by `(` yields `ConstFetch` (first
conjunct); a non-identifier member not followed by `(` yields
`StaticPropertyFetch` (second conjunct, variable member); the literal
`class` keyword is treated as an identifier named `"class"` (third
conjunct); a following `(` — or the `{expr}` member form, which is only
valid in a method-call context — parses an argument list into a
`StaticMethodCall` (fourth and fifth conjuncts), the `{expr}` form
demanding the argument list even without `(` (sixth conjunct: the missing
`(` is an `ExpectedToken` error). -/
theorem c3_double_colon :
    (∀ (fuel : Nat) (s : State) (lhs : Expression) (n : Bytes),
      s.current.kind = TokenKind.doubleColon →
      s.peek.kind = TokenKind.identifier n →
      ((s.next.next).current.kind == TokenKind.leftParen) = false →
      postfixOp (fuel + 2) s lhs .doubleColon =
        .ok (.constFetch lhs ⟨s.peek.span, n, (s.next.next).current.span⟩,
          s.next.next)) ∧
    (∀ (fuel : Nat) (s : State) (lhs : Expression) (n : Bytes),
      s.current.kind = TokenKind.doubleColon →
      s.peek.kind = TokenKind.variable_ n →
      ((s.next.next).current.kind == TokenKind.leftParen) = false →
      postfixOp (fuel + 2) s lhs .doubleColon =
        .ok (.staticPropertyFetch lhs
          (.variable_ ⟨s.peek.span, n, (s.next.next).current.span⟩), s.next.next)) ∧
    (∀ (fuel : Nat) (s : State) (lhs : Expression),
      s.current.kind = TokenKind.doubleColon →
      s.peek.kind = TokenKind.class_ →
      ((s.next.next).current.kind == TokenKind.leftParen) = false →
      postfixOp (fuel + 2) s lhs .doubleColon =
        .ok (.constFetch lhs ⟨s.peek.span, strBytes "class",
          (s.next.next).current.span⟩, s.next.next)) ∧
    okOf (runExprKs [.identifier (strBytes "Foo"), .doubleColon,
      .identifier (strBytes "bar"), .leftParen, .rightParen, .semiColon, .eof]) =
      some (.staticMethodCall (.identifier ⟨(1, 0), strBytes "Foo", (1, 1)⟩)
        (.identifier ⟨(1, 2), strBytes "bar", (1, 3)⟩) []) ∧
    okOf (runExprKs [.identifier (strBytes "Foo"), .doubleColon, .leftBrace,
      .variable_ (strBytes "x"), .rightBrace, .leftParen, .rightParen, .semiColon,
      .eof]) =
      some (.staticMethodCall (.identifier ⟨(1, 0), strBytes "Foo", (1, 1)⟩)
        (.dynamicVariable (.variable_ ⟨(1, 3), strBytes "x", (1, 4)⟩)) []) ∧
    errOf (runExprKs [.identifier (strBytes "Foo"), .doubleColon, .leftBrace,
      .literalInteger [49], .rightBrace, .semiColon, .eof]) =
      some (.expectedToken ["("] ";" (1, 5)) := by
  refine ⟨?_, ?_, ?_, rfl, rfl, rfl⟩
  · intro fuel s lhs n h hpk h3
    obtain ⟨⟨ck, csp⟩, ⟨pkk, pksp⟩, it, cms, f1, f2⟩ := s
    have h2 : ck = TokenKind.doubleColon := h
    subst h2
    have h4 : pkk = TokenKind.identifier n := hpk
    subst h4
    have h5 : ((it.headD defaultToken).kind == TokenKind.leftParen) = false := h3
    have step : postfixOp (fuel + 2)
        ⟨⟨TokenKind.doubleColon, csp⟩, ⟨TokenKind.identifier n, pksp⟩, it, cms, f1, f2⟩
        lhs .doubleColon =
        (if ((it.headD defaultToken).kind == TokenKind.leftParen) = true then
          match argsList fuel
              ((⟨⟨TokenKind.doubleColon, csp⟩, ⟨TokenKind.identifier n, pksp⟩, it, cms,
                f1, f2⟩ : State).next.next) with
          | .error e => .error e
          | .ok (args, s1) =>
            .ok (.staticMethodCall lhs
              (.identifier ⟨pksp, n, (it.headD defaultToken).span⟩) args, s1)
        else
          .ok (.constFetch lhs ⟨pksp, n, (it.headD defaultToken).span⟩,
            (⟨⟨TokenKind.doubleColon, csp⟩, ⟨TokenKind.identifier n, pksp⟩, it, cms,
              f1, f2⟩ : State).next.next)) := rfl
    rw [step, h5]
    simp only [Bool.false_eq_true, if_false, ite_false]
    rfl
  · intro fuel s lhs n h hpk h3
    obtain ⟨⟨ck, csp⟩, ⟨pkk, pksp⟩, it, cms, f1, f2⟩ := s
    have h2 : ck = TokenKind.doubleColon := h
    subst h2
    have h4 : pkk = TokenKind.variable_ n := hpk
    subst h4
    have h5 : ((it.headD defaultToken).kind == TokenKind.leftParen) = false := h3
    have step : postfixOp (fuel + 2)
        ⟨⟨TokenKind.doubleColon, csp⟩, ⟨TokenKind.variable_ n, pksp⟩, it, cms, f1, f2⟩
        lhs .doubleColon =
        (if ((it.headD defaultToken).kind == TokenKind.leftParen || false) = true then
          match argsList fuel
              ((⟨⟨TokenKind.doubleColon, csp⟩, ⟨TokenKind.variable_ n, pksp⟩, it, cms,
                f1, f2⟩ : State).next.next) with
          | .error e => .error e
          | .ok (args, s1) =>
            .ok (.staticMethodCall lhs
              (.variable_ ⟨pksp, n, (it.headD defaultToken).span⟩) args, s1)
        else
          .ok (.staticPropertyFetch lhs
            (.variable_ ⟨pksp, n, (it.headD defaultToken).span⟩),
            (⟨⟨TokenKind.doubleColon, csp⟩, ⟨TokenKind.variable_ n, pksp⟩, it, cms,
              f1, f2⟩ : State).next.next)) := rfl
    rw [step, h5]
    simp only [Bool.false_or, Bool.false_eq_true, if_false, ite_false]
    rfl
  · intro fuel s lhs h hpk h3
    obtain ⟨⟨ck, csp⟩, ⟨pkk, pksp⟩, it, cms, f1, f2⟩ := s
    have h2 : ck = TokenKind.doubleColon := h
    subst h2
    have h4 : pkk = TokenKind.class_ := hpk
    subst h4
    have h5 : ((it.headD defaultToken).kind == TokenKind.leftParen) = false := h3
    have step : postfixOp (fuel + 2)
        ⟨⟨TokenKind.doubleColon, csp⟩, ⟨TokenKind.class_, pksp⟩, it, cms, f1, f2⟩
        lhs .doubleColon =
        (if ((it.headD defaultToken).kind == TokenKind.leftParen) = true then
          match argsList fuel
              ((⟨⟨TokenKind.doubleColon, csp⟩, ⟨TokenKind.class_, pksp⟩, it, cms,
                f1, f2⟩ : State).next.next) with
          | .error e => .error e
          | .ok (args, s1) =>
            .ok (.staticMethodCall lhs
              (.identifier ⟨pksp, strBytes "class", (it.headD defaultToken).span⟩)
              args, s1)
        else
          .ok (.constFetch lhs ⟨pksp, strBytes "class", (it.headD defaultToken).span⟩,
            (⟨⟨TokenKind.doubleColon, csp⟩, ⟨TokenKind.class_, pksp⟩, it, cms, f1,
              f2⟩ : State).next.next)) := rfl
    rw [step, h5]
    simp only [Bool.false_eq_true, if_false, ite_false]
    rfl

/-- C3 witness: the three member rules at concrete streams `:: bar ;`,
`:: $v ;` and `:: class ;` (a `.null` left operand). -/
theorem c3_double_colon_witness :
    (postfixOp 7 (State.new (mkTokens [.doubleColon, .identifier (strBytes "bar"),
      .semiColon, .eof])) .null .doubleColon =
      .ok (.constFetch .null ⟨(1, 1), strBytes "bar", (1, 2)⟩,
        (State.new (mkTokens [.doubleColon, .identifier (strBytes "bar"), .semiColon,
          .eof])).next.next)) ∧
    (postfixOp 7 (State.new (mkTokens [.doubleColon, .variable_ (strBytes "v"),
      .semiColon, .eof])) .null .doubleColon =
      .ok (.staticPropertyFetch .null (.variable_ ⟨(1, 1), strBytes "v", (1, 2)⟩),
        (State.new (mkTokens [.doubleColon, .variable_ (strBytes "v"), .semiColon,
          .eof])).next.next)) ∧
    (postfixOp 7 (State.new (mkTokens [.doubleColon, .class_, .semiColon, .eof]))
      .null .doubleColon =
      .ok (.constFetch .null ⟨(1, 1), strBytes "class", (1, 2)⟩,
        (State.new (mkTokens [.doubleColon, .class_, .semiColon, .eof])).next.next)) :=
  ⟨c3_double_colon.1 5 _ .null (strBytes "bar") rfl rfl rfl,
    c3_double_colon.2.1 5 _ .null (strBytes "v") rfl rfl rfl,
    c3_double_colon.2.2.1 5 _ .null rfl rfl rfl⟩

/-- C7 counterexample: a `yield from` followed by `=>` is not itself a
parse error — inside `array(...)`, `array(yield from 1 => 2)` parses
successfully, the `=>` being taken as the array item's key separator. -/
theorem c7_counterexample :
    okOf (runExprKs [.array, .leftParen, .yield_, .fromKw, .literalInteger [49],
      .doubleArrow, .literalInteger [50], .rightParen, .semiColon, .eof]) =
      some (.array [ArrayItem.mk (some (.yieldFrom (.literalInteger [49])))
        (.literalInteger [50]) false false]) :=
  rfl

/-- C7 (amended): `yield` immediately followed by `;` is a bare `Yield`
with no key and no value (first conjunct, general); otherwise the operand
is parsed (at `YieldFrom` precedence when preceded by `from`, at `Yield`
otherwise — the two classes allow no observable difference, as no infix
operator sits between them), and a subsequent `=>` turns the parsed
expression into the key with the value parsed at `Yield` precedence.
After `yield from`, a `=>` is NOT consumed by the yield rule: no key is
attached and the token is left to the surrounding context, which at
statement level rejects it with `ExpectedToken(";")` at the `=>`, while a
context that accepts `=>` (an `array(...)` item) parses it without
error. -/
theorem c7_yield :
    (∀ (fuel : Nat) (s : State) (prec : Precedence),
      s.current.kind = TokenKind.yield_ →
      s.peek.kind = TokenKind.semiColon →
      expression (fuel + 2) s prec = .ok (.yield_ none none, s.next)) ∧
    okOf (runExprKs [.yield_, .literalInteger [49], .semiColon, .eof]) =
      some (.yield_ none (some (.literalInteger [49]))) ∧
    okOf (runExprKs [.yield_, .literalInteger [49], .doubleArrow,
      .literalInteger [50], .semiColon, .eof]) =
      some (.yield_ (some (.literalInteger [49])) (some (.literalInteger [50]))) ∧
    okOf (runExprKs [.yield_, .fromKw, .literalInteger [49], .semiColon, .eof]) =
      some (.yieldFrom (.literalInteger [49])) ∧
    runParseKs [.openTag, .yield_, .fromKw, .literalInteger [49], .doubleArrow,
      .literalInteger [50], .semiColon, .eof] =
      .error (.expectedToken [";"] "=>" (1, 4)) ∧
    okOf (runExprKs [.array, .leftParen, .yield_, .fromKw, .literalInteger [49],
      .doubleArrow, .literalInteger [50], .rightParen, .semiColon, .eof]) =
      some (.array [ArrayItem.mk (some (.yieldFrom (.literalInteger [49])))
        (.literalInteger [50]) false false]) := by
  refine ⟨?_, rfl, rfl, rfl, rfl, rfl⟩
  intro fuel s prec h hp
  obtain ⟨⟨ck, csp⟩, ⟨pkk, pksp⟩, it, cms, f1, f2⟩ := s
  have h2 : ck = TokenKind.yield_ := h
  have h3 : pkk = TokenKind.semiColon := hp
  subst h2; subst h3
  rfl

/-- C7 witness: the bare-yield rule at the concrete stream `yield ;`. -/
theorem c7_yield_witness :
    expression 7 (State.new (mkTokens [.yield_, .semiColon, .eof])) .lowest =
      .ok (.yield_ none none,
        (State.new (mkTokens [.yield_, .semiColon, .eof])).next) :=
  c7_yield.1 5 _ .lowest rfl rfl

/-- C8: heredoc/nowdoc dedent.  The dedent loop strips exactly up to `N`
leading occurrences of the indentation byte (first conjunct: it equals
dropping `min N (leading count)` bytes); the heredoc dedent changes
`Const` parts exactly that way and leaves `Expr` parts unchanged (second
and third conjuncts); the lines of a dedented nowdoc body are exactly the
lines of the original body, each stripped the same way (fourth conjunct).
The last two conjuncts run `doc_string` concretely: a heredoc
`"  ab" {$x} "    cd"` with 2-space indentation dedents to
`"ab" {$x} "  cd"`, and a nowdoc `"  ab\n    cd\n x"` dedents to
`"ab\n  cd\nx"`. -/
theorem c8_doc_dedent :
    (∀ (c n : Nat) (b : Bytes),
      stripIndent c n b = b.drop (min n ((b.takeWhile (fun x => x == c)).length))) ∧
    (∀ (c n : Nat) (e : Expression), dedentPart c n (.expr e) = .expr e) ∧
    (∀ (c n : Nat) (b : Bytes), dedentPart c n (.const b) = .const (stripIndent c n b)) ∧
    (∀ (c n : Nat) (b : Bytes),
      splitOnNewline (nowdocDedent c n b) =
        (splitOnNewline b).map (stripIndent c n)) ∧
    okOf (runExprKs [.startDocString (strBytes "EOT") .heredoc,
      .stringPart (strBytes "  ab"), .leftBrace, .variable_ (strBytes "x"),
      .rightBrace, .stringPart (strBytes "    cd"),
      .endDocString (strBytes "EOT") (some .space) 2, .semiColon, .eof]) =
      some (.heredoc [.const (strBytes "ab"),
        .expr (.variable_ ⟨(1, 3), strBytes "x", (1, 4)⟩),
        .const (strBytes "  cd")]) ∧
    okOf (runExprKs [.startDocString (strBytes "EOT") .nowdoc,
      .stringPart [32, 32, 97, 98, 10, 32, 32, 32, 32, 99, 100, 10, 32, 120],
      .endDocString (strBytes "EOT") (some .space) 2, .semiColon, .eof]) =
      some (.nowdoc [97, 98, 10, 32, 32, 99, 100, 10, 120]) := by
  refine ⟨stripIndent_eq_drop, fun _ _ _ => rfl, fun _ _ _ => rfl, ?_, rfl, rfl⟩
  intro c n b
  unfold nowdocDedent
  apply splitOnNewline_joinLines
  · intro hmap
    exact splitOnNewline_ne_nil b (List.map_eq_nil_iff.mp hmap)
  · intro l hl
    rcases List.mem_map.mp hl with ⟨l0, hl0, rfl⟩
    rw [stripIndent_eq_drop]
    intro hmem
    exact mem_splitOnNewline_no_nl b l0 hl0 (List.mem_of_mem_drop hmem)

/-- C9: a trailing comma inside group-`use` braces is accepted — the brace
loop simply re-checks for `}` (first conjunct: at `}` the loop ends with
the items unchanged), and the parsed `GroupUse` is identical with and
without the trailing comma (second and third conjuncts); a trailing comma
in the non-brace list form is rejected, the parser demanding another name
after the comma (fourth conjunct: `use A , ;` is
`ExpectedToken("an identifier")` at the `;`). -/
theorem c9_use_trailing_comma :
    (∀ (fuel : Nat) (s : State) (uses : List UseItem),
      s.current.kind = TokenKind.rightBrace →
      groupUseLoop (fuel + 1) s uses = .ok (uses, s)) ∧
    runParseKs [.openTag, .use_, .identifier (strBytes "A"), .leftBrace,
      .identifier (strBytes "B"), .comma, .identifier (strBytes "C"), .comma,
      .rightBrace, .semiColon, .eof] =
      runParseKs [.openTag, .use_, .identifier (strBytes "A"), .leftBrace,
        .identifier (strBytes "B"), .comma, .identifier (strBytes "C"),
        .rightBrace, .semiColon, .eof] ∧
    runParseKs [.openTag, .use_, .identifier (strBytes "A"), .leftBrace,
      .identifier (strBytes "B"), .comma, .identifier (strBytes "C"), .comma,
      .rightBrace, .semiColon, .eof] =
      .ok [Statement.groupUse ⟨(1, 2), strBytes "A", (1, 3)⟩ .normal
        [UseItem.mk ⟨(1, 4), strBytes "B", (1, 5)⟩ none,
          UseItem.mk ⟨(1, 6), strBytes "C", (1, 7)⟩ none]] ∧
    runParseKs [.openTag, .use_, .identifier (strBytes "A"), .comma, .semiColon,
      .eof] =
      .error (.expectedToken ["an identifier"] ";" (1, 4)) := by
  refine ⟨?_, rfl, rfl, rfl⟩
  intro fuel s uses h
  obtain ⟨⟨ck, csp⟩, pk, it, cms, f1, f2⟩ := s
  have h2 : ck = TokenKind.rightBrace := h
  subst h2
  rfl

/-- C9 witness: the brace-loop stop rule at a concrete state sitting on
`}`. -/
theorem c9_use_trailing_comma_witness :
    groupUseLoop 6 (State.new (mkTokens [.rightBrace, .semiColon, .eof])) [] =
      .ok ([], State.new (mkTokens [.rightBrace, .semiColon, .eof])) :=
  c9_use_trailing_comma.1 5 _ [] rfl

/-- C10: a single trailing comma after the last item of a non-empty
`array(...)` literal is accepted and adds nothing: at `)` the item loop
returns its items unchanged (first conjunct), and after a trailing comma
followed by `)` the comma/continue step likewise returns the items
unchanged (second conjunct); concretely `array(1, 2,)` and `array(1, 2)`
parse to the same `Array` node (third and fourth conjuncts). -/
theorem c10_array_trailing_comma :
    (∀ (fuel : Nat) (s : State) (items : List ArrayItem),
      s.current.kind = TokenKind.rightParen →
      arrayPairs (fuel + 1) s items = .ok (items, s)) ∧
    (∀ (fuel : Nat) (s : State) (items : List ArrayItem),
      s.current.kind = TokenKind.comma →
      (s.next.skipComments).current.kind = TokenKind.rightParen →
      arrayContinue (fuel + 2) s items = .ok (items, s.next.skipComments)) ∧
    okOf (runExprKs [.array, .leftParen, .literalInteger [49], .comma,
      .literalInteger [50], .comma, .rightParen, .semiColon, .eof]) =
      okOf (runExprKs [.array, .leftParen, .literalInteger [49], .comma,
        .literalInteger [50], .rightParen, .semiColon, .eof]) ∧
    okOf (runExprKs [.array, .leftParen, .literalInteger [49], .comma,
      .literalInteger [50], .comma, .rightParen, .semiColon, .eof]) =
      some (.array [ArrayItem.mk none (.literalInteger [49]) false false,
        ArrayItem.mk none (.literalInteger [50]) false false]) := by
  have stop : ∀ (fuel : Nat) (s : State) (items : List ArrayItem),
      s.current.kind = TokenKind.rightParen →
      arrayPairs (fuel + 1) s items = .ok (items, s) := by
    intro fuel s items h
    obtain ⟨⟨ck, csp⟩, pk, it, cms, f1, f2⟩ := s
    have h2 : ck = TokenKind.rightParen := h
    subst h2
    rfl
  refine ⟨stop, ?_, rfl, rfl⟩
  intro fuel s items h h2
  obtain ⟨⟨ck, csp⟩, pk, it, cms, f1, f2⟩ := s
  have h3 : ck = TokenKind.comma := h
  subst h3
  have step : arrayContinue (fuel + 2)
      ⟨⟨TokenKind.comma, csp⟩, pk, it, cms, f1, f2⟩ items =
      arrayPairs (fuel + 1)
        ((⟨⟨TokenKind.comma, csp⟩, pk, it, cms, f1, f2⟩ : State).next.skipComments)
        items := rfl
  rw [step, stop fuel _ items h2]

/-- C10 witness: the two loop rules at concrete states (sitting on `)`;
sitting on a trailing comma directly before `)`). -/
theorem c10_array_trailing_comma_witness :
    (arrayPairs 6 (State.new (mkTokens [.rightParen, .semiColon, .eof])) [] =
      .ok ([], State.new (mkTokens [.rightParen, .semiColon, .eof]))) ∧
    (arrayContinue 7 (State.new (mkTokens [.comma, .rightParen, .semiColon, .eof]))
      [] =
      .ok ([], (State.new (mkTokens [.comma, .rightParen, .semiColon,
        .eof])).next.skipComments)) :=
  ⟨c10_array_trailing_comma.1 5 _ [] rfl,
    c10_array_trailing_comma.2.1 5 _ [] rfl rfl⟩

end Php
